import Mathlib

/-!
Verification development for the `assess_gtfs` repository.

The repository's Python implementation modules (`validators.py`, `cleaners.py`,
`validation.py`, `multi_validation.py`) are not present under `src/`; only their
tests are.  Following the spec (`spec.md`), the definitions below are a shallow
embedding of the documented core: the fast-travel anomaly checks, the cleaning
pipeline, calendar expansion and the multi-feed operations.  Every definition
whose Python source is missing carries a doc comment starting with
`Modelled from the spec:`.

Modelling conventions:
* the great-circle distance function and the per-route_type speed-threshold
  table are parameters (bundled in `AssessGtfs.Params`), since both are
  floating-point computations or external lookups in the source; distances
  and thresholds are integers (e.g. scaled metres and metres per second —
  the claims under verification are structural and quantify over these
  parameters), and the threshold-exceedance test `distance / elapsed >
  threshold` is rendered cross-multiplied as `threshold * elapsed <
  distance`, which is exactly equivalent for the positive `elapsed` values
  reaching it (`segFlagged_iff_speed` proves the equivalence against the
  rational-division formula);
* timestamps are integers (seconds since service-day midnight, may exceed
  86400, never wrapped);
* dates are natural-number day ordinals with `d % 7` the weekday index
  (0 = monday .. 6 = sunday);
* a pandas DataFrame is a list of records; an absent table is the empty list,
  except the shapes table where the possible absence of the `shape_id` column
  is modelled by a Boolean flag (the scenario of `test_clean_feed_defence`).
-/

namespace AssessGtfs

/-- A stop: identifier plus geodetic coordinate (spec §3). -/
structure Stop where
  stop_id : String
  stop_lat : ℤ
  stop_lon : ℤ
deriving Repr, DecidableEq

/-- A stop-time row (spec §3): trip, stop, sequence position, arrival and
departure in seconds since service-day midnight. -/
structure StopTime where
  trip_id : String
  stop_id : String
  stop_sequence : ℕ
  arrival_time : ℤ
  departure_time : ℤ
deriving Repr, DecidableEq

/-- A trip row (spec §3). -/
structure Trip where
  trip_id : String
  route_id : String
  service_id : String
  shape_id : Option String
deriving Repr, DecidableEq

/-- A route row (spec §3): identifier and integer mode code. -/
structure Route where
  route_id : String
  route_type : ℕ
deriving Repr, DecidableEq

/-- A weekly-pattern calendar row (spec §3): seven weekday flags and an
inclusive date range, dates as day ordinals. -/
structure CalendarRow where
  service_id : String
  monday : Bool
  tuesday : Bool
  wednesday : Bool
  thursday : Bool
  friday : Bool
  saturday : Bool
  sunday : Bool
  start_date : ℕ
  end_date : ℕ
deriving Repr, DecidableEq

/-- A calendar exception row (spec §3): `exception_type` 1 adds the service on
the date, 2 removes it. -/
structure CalendarDateRow where
  service_id : String
  date : ℕ
  exception_type : ℕ
deriving Repr, DecidableEq

/-- A shape row; only the `shape_id` column matters to cleaning. -/
structure ShapeRow where
  shape_id : String
deriving Repr, DecidableEq

/-- The shapes table.  `has_shape_id` models presence of the `shape_id`
column, which `test_clean_feed_defence` removes to trigger a
`CleaningFailure` (spec §7). -/
structure ShapesTable where
  has_shape_id : Bool
  rows : List ShapeRow
deriving Repr, DecidableEq

/-- An in-memory feed (spec §6): the tables named in §3.  `name` is the
feed's path, used in error messages.  Empty list models an absent table. -/
structure Feed where
  name : String
  stops : List Stop
  stop_times : List StopTime
  trips : List Trip
  routes : List Route
  calendar : List CalendarRow
  calendar_dates : List CalendarDateRow
  shapes : ShapesTable
deriving Repr, DecidableEq

/-- External parameters of the fast-travel checks (spec §3, §6): the
great-circle distance between two stops, and the per-route_type maximum
plausible speed (the threshold table already applies its default to
unmapped route_types). -/
structure Params where
  dist : Stop → Stop → ℤ
  threshold : ℕ → ℤ

/-- Record kind (spec §3: `kind: error|warning`). -/
inductive RecordKind where
  | error : RecordKind
  | warning : RecordKind
deriving Repr, DecidableEq

/-- A validation finding (spec §3): kind, message, subject table name, and
integer row references into a deterministic check-specific ordering. -/
structure ValidityRecord where
  kind : RecordKind
  message : String
  table : String
  rows : List ℕ
deriving Repr, DecidableEq

/-- Adjacent pairs of a list: `pairsOf [a, b, c] = [(a, b), (b, c)]`. -/
def pairsOf {α : Type} : List α → List (α × α)
  | a :: b :: rest => (a, b) :: pairsOf (b :: rest)
  | _ => []

/-- Ordering of stop-times by sequence position. -/
def stLe (a b : StopTime) : Prop := a.stop_sequence ≤ b.stop_sequence

instance : DecidableRel stLe := fun a b => Nat.decLe a.stop_sequence b.stop_sequence

/-- The route_type of a trip, resolved through the trips and routes tables;
0 when the trip or route is unmapped. -/
def Feed.routeTypeOfTrip (f : Feed) (tid : String) : ℕ :=
  match f.trips.find? (fun t => t.trip_id == tid) with
  | none => 0
  | some t =>
    match f.routes.find? (fun r => r.route_id == t.route_id) with
    | none => 0
    | some r => r.route_type

/-- Look a stop up by identifier (coordinate (0, 0) when missing). -/
def Feed.stopOf (f : Feed) (sid : String) : Stop :=
  (f.stops.find? (fun s => s.stop_id == sid)).getD ⟨sid, 0, 0⟩

/-- Lexicographic comparison of character lists by code point. -/
def charListLe : List Char → List Char → Bool
  | [], _ => true
  | _ :: _, [] => false
  | a :: as, b :: bs =>
    if a.toNat < b.toNat then true
    else if b.toNat < a.toNat then false
    else charListLe as bs

/-- Lexicographic order on strings (the sort order of identifiers). -/
def strLe (a b : String) : Prop := charListLe a.data b.data = true

instance : DecidableRel strLe := fun a b => instDecidableEqBool (charListLe a.data b.data) true

/-- The distinct trip identifiers of the feed's stop-times, sorted. -/
def Feed.tripIds (f : Feed) : List String :=
  List.insertionSort strLe (f.stop_times.map (fun st => st.trip_id)).dedup

/-- A trip's stop-times, sorted by sequence position (spec §4.1). -/
def Feed.stopTimesOfTrip (f : Feed) (tid : String) : List StopTime :=
  List.insertionSort stLe (f.stop_times.filter (fun st => st.trip_id == tid))

/-- One row of the synthetic per-segment table (spec §4.1): an adjacent
stop-time pair of one trip, with its great-circle distance and elapsed time. -/
structure Segment where
  trip_id : String
  route_type : ℕ
  seqA : ℕ
  seqB : ℕ
  distance : ℤ
  elapsed : ℤ
deriving Repr, DecidableEq

/-- Build the segment for an adjacent stop-time pair (spec §4.1):
`elapsed = b.departure - a.arrival`, never wrapped modulo 24h. -/
def mkSegment (P : Params) (f : Feed) (ab : StopTime × StopTime) : Segment :=
  { trip_id := ab.1.trip_id
    route_type := f.routeTypeOfTrip ab.1.trip_id
    seqA := ab.1.stop_sequence
    seqB := ab.2.stop_sequence
    distance := P.dist (f.stopOf ab.1.stop_id) (f.stopOf ab.2.stop_id)
    elapsed := ab.2.departure_time - ab.1.arrival_time }

/-- Modelled from the spec (§4.1, `gtfs/validators.py` is missing from
`src/`): a segment is flagged when `elapsed ≤ 0` (degenerate, flagged
unconditionally) or when `distance / elapsed` exceeds the threshold for the
trip's route_type. -/
def segFlagged (P : Params) (s : Segment) : Bool :=
  decide (s.elapsed ≤ 0) || decide (P.threshold s.route_type * s.elapsed < s.distance)

/-- The per-trip segment list: adjacent pairs of the trip's sequence-sorted
stop-times. -/
def tripSegments (P : Params) (f : Feed) (tid : String) : List Segment :=
  (pairsOf (f.stopTimesOfTrip tid)).map (mkSegment P f)

/-- Modelled from the spec (§4.1): the synthetic per-segment table for the
whole feed, ordered first by trip identifier then by the earlier stop's
sequence position. -/
def fullStopSchedule (P : Params) (f : Feed) : List Segment :=
  ((f.tripIds).map (tripSegments P f)).flatten

/-- The integer positions (starting at `i`) of the elements of `l` satisfying
`p` — the row references of a ValidityRecord. -/
def flaggedIdxFrom {α : Type} (p : α → Bool) : ℕ → List α → List ℕ
  | _, [] => []
  | i, s :: rest =>
    if p s then i :: flaggedIdxFrom p (i + 1) rest
    else flaggedIdxFrom p (i + 1) rest

/-- The integer positions of the flagged rows of a check table. -/
def flaggedIdx {α : Type} (p : α → Bool) (l : List α) : List ℕ :=
  flaggedIdxFrom p 0 l

/-- Modelled from the spec (§4.1, `gtfs/validators.py` is missing from
`src/`): the consecutive-stop fast-travel check.  Emits no record when no
segment is flagged; otherwise one warning record on table
`"full_stop_schedule"` whose rows are the flagged rows' positions in the
synthetic per-segment table. -/
def validate_travel_between_consecutive_stops (P : Params) (f : Feed) :
    Option ValidityRecord :=
  let idx := flaggedIdx (segFlagged P) (fullStopSchedule P f)
  if idx.isEmpty then none
  else some { kind := RecordKind.warning
              message := "Fast Travel Between Consecutive Stops"
              table := "full_stop_schedule"
              rows := idx }

/-- A default stop-time (used only as the `getD` fallback in statements). -/
def stDefault : StopTime := ⟨"", "", 0, 0, 0⟩

/-- The sliding windows of `w` consecutive elements of a list; a list shorter
than `w` yields no window. -/
def slidingWindows {α : Type} (w : ℕ) : List α → List (List α)
  | [] => []
  | a :: rest =>
    if w ≤ (a :: rest).length then (a :: rest).take w :: slidingWindows w rest
    else []

/-- Modelled from the spec (§4.2): the windows of `w` consecutive stop-times
of one trip; a trip with fewer stop-times than `w` is skipped. -/
def tripWindows (w : ℕ) (f : Feed) (tid : String) : List (List StopTime) :=
  slidingWindows w (f.stopTimesOfTrip tid)

/-- One row of the multi-stop check table (spec §4.2): a window's trip,
route_type, starting sequence position, cumulative distance and cumulative
elapsed time. -/
structure WindowRow where
  trip_id : String
  route_type : ℕ
  startSeq : ℕ
  distance : ℤ
  elapsed : ℤ
deriving Repr, DecidableEq

/-- Modelled from the spec (§4.2): cumulative distance is the sum of pairwise
consecutive great-circle distances inside the window (not the window-endpoint
straight-line distance); cumulative elapsed is the last stop-time's departure
minus the first stop-time's arrival. -/
def mkWindowRow (P : Params) (f : Feed) (tid : String) (win : List StopTime) :
    WindowRow :=
  { trip_id := tid
    route_type := f.routeTypeOfTrip tid
    startSeq := ((win.head?).map (fun st => st.stop_sequence)).getD 0
    distance := ((pairsOf win).map (fun ab =>
      P.dist (f.stopOf ab.1.stop_id) (f.stopOf ab.2.stop_id))).sum
    elapsed := ((win.getLast?).map (fun st => st.departure_time)).getD 0 -
      ((win.head?).map (fun st => st.arrival_time)).getD 0 }

/-- A window is flagged under the same non-positive-elapsed and
threshold-exceedance policy as the consecutive-stop check (spec §4.2). -/
def winFlagged (P : Params) (r : WindowRow) : Bool :=
  decide (r.elapsed ≤ 0) || decide (P.threshold r.route_type * r.elapsed < r.distance)

/-- Modelled from the spec (§4.2): the whole-feed window table of the
multi-stop check. -/
def multipleStopsTable (P : Params) (w : ℕ) (f : Feed) : List WindowRow :=
  ((f.tripIds).map (fun tid => (tripWindows w f tid).map (mkWindowRow P f tid))).flatten

/-- Modelled from the spec (§4.2, `gtfs/validators.py` is missing from
`src/`): the multi-stop fast-travel check with window size `w`.  Emits no
record when no window is flagged; otherwise one warning record on table
`"multiple_stops_invalid"`. -/
def validate_travel_over_multiple_stops (P : Params) (w : ℕ) (f : Feed) :
    Option ValidityRecord :=
  let idx := flaggedIdx (winFlagged P) (multipleStopsTable P w f)
  if idx.isEmpty then none
  else some { kind := RecordKind.warning
              message := "Fast Travel Over Multiple Stops"
              table := "multiple_stops_invalid"
              rows := idx }

/-- Modelled from the spec (§4.4): the fast-travel portion of one validation
pass (structural/schema checks are delegated to an external collaborator and
are out of scope). -/
def fastTravelLedger (P : Params) (w : ℕ) (f : Feed) : List ValidityRecord :=
  (validate_travel_between_consecutive_stops P f).toList ++
    (validate_travel_over_multiple_stops P w f).toList

/-- Total row count of the ledger records on table `tbl`. -/
def recordRowCount (tbl : String) (ledger : List ValidityRecord) : ℕ :=
  ((ledger.filter (fun r => r.table == tbl)).map (fun r => r.rows.length)).sum

/-- The trip identifiers recovered by mapping the consecutive-stop record's
flagged rows back into the synthetic per-segment table (spec §4.4). -/
def flaggedTripIdsConsec (P : Params) (f : Feed) : List String :=
  match validate_travel_between_consecutive_stops P f with
  | none => []
  | some r => r.rows.filterMap (fun i =>
      ((fullStopSchedule P f).get? i).map (fun s => s.trip_id))

/-- The trip identifiers recovered by mapping the multi-stop record's flagged
rows back into the window table (spec §4.4). -/
def flaggedTripIdsMulti (P : Params) (w : ℕ) (f : Feed) : List String :=
  match validate_travel_over_multiple_stops P w f with
  | none => []
  | some r => r.rows.filterMap (fun i =>
      ((multipleStopsTable P w f).get? i).map (fun s => s.trip_id))

/-- The shape identifiers referenced by the trips in `ids`. -/
def shapeIdsOfTrips (f : Feed) (ids : List String) : List String :=
  (f.trips.filter (fun t => ids.contains t.trip_id)).filterMap (fun t => t.shape_id)

/-- Modelled from the spec (§4.4, `cleaners.py` is missing from `src/`):
remove the named trips from the feed's trips, stop-times and shape tables. -/
def drop_trips (f : Feed) (ids : List String) : Feed :=
  { f with
    trips := f.trips.filter (fun t => !(ids.contains t.trip_id))
    stop_times := f.stop_times.filter (fun st => !(ids.contains st.trip_id))
    shapes := { f.shapes with rows := f.shapes.rows.filter (fun s =>
      !((shapeIdsOfTrips f ids).contains s.shape_id)) } }

/-- The non-fatal message reported when a cleaning step cannot find an
expected column (`test_clean_feed_defence`). -/
def keyErrorMsg : String := "KeyError. Feed was not cleaned."

/-- Modelled from the spec (§4.4, §7): one removal step of cleaning.  When the
shapes table misses the expected `shape_id` column the step reports a
non-fatal message and leaves the feed unmodified for that step; it never
raises. -/
def cleanStep (f : Feed) (ids : List String) : Feed × List String :=
  if f.shapes.has_shape_id then (drop_trips f ids, [])
  else (f, [keyErrorMsg])

/-- Result of cleaning one feed: the cleaned feed plus the non-fatal messages
reported by failed steps. -/
structure CleanResult where
  feed : Feed
  messages : List String
deriving Repr, DecidableEq

/-- Modelled from the spec (§4.4, `cleaners.py` is missing from `src/`): for
each cleanable record kind (the two fast-travel kinds) map the flagged rows of
the pre-clean ledger back to trip identifiers and remove those trips; a step
that cannot find an expected column only reports, and cleaning of the other
kind continues.  (Re-validation afterwards is `fastTravelLedger` applied to
the resulting feed.) -/
def clean_feed (P : Params) (w : ℕ) (f : Feed) : CleanResult :=
  let ids1 := flaggedTripIdsConsec P f
  let step1 := cleanStep f ids1
  let ids2 := flaggedTripIdsMulti P w f
  let step2 := cleanStep step1.1 ids2
  { feed := step2.1, messages := step1.2 ++ step2.2 }

/-- Minimum of a list of day ordinals (0 on the empty list). -/
def listMin : List ℕ → ℕ
  | [] => 0
  | a :: rest => rest.foldl min a

/-- Maximum of a list of day ordinals (0 on the empty list). -/
def listMax : List ℕ → ℕ
  | [] => 0
  | a :: rest => rest.foldl max a

/-- The closed date range `[s, e]` as a list of day ordinals. -/
def rangeClosed (s e : ℕ) : List ℕ :=
  (List.range (e + 1 - s)).map (fun k => s + k)

/-- The weekday flag of a weekly-pattern row, by weekday index
(0 = monday .. 6 = sunday). -/
def CalendarRow.day (r : CalendarRow) : ℕ → Bool
  | 0 => r.monday
  | 1 => r.tuesday
  | 2 => r.wednesday
  | 3 => r.thursday
  | 4 => r.friday
  | 5 => r.saturday
  | 6 => r.sunday
  | _ => false

/-- The distinct service identifiers of an exception table, in order of first
omission of duplicates. -/
def serviceIdsOf (cd : List CalendarDateRow) : List String :=
  (cd.map (fun r => r.service_id)).dedup

/-- The exception dates of one service. -/
def datesOfService (cd : List CalendarDateRow) (sid : String) : List ℕ :=
  (cd.filter (fun r => r.service_id == sid)).map (fun r => r.date)

/-- Whether the exception table holds an `add` (`exception_type = 1`) row for
the service on the date. -/
def hasAdd (cd : List CalendarDateRow) (sid : String) (d : ℕ) : Bool :=
  cd.any (fun r => r.service_id == sid && r.date == d && r.exception_type == 1)

/-- Whether the exception table holds a `remove` (`exception_type = 2`) row
for the service on the date. -/
def hasRemove (cd : List CalendarDateRow) (sid : String) (d : ℕ) : Bool :=
  cd.any (fun r => r.service_id == sid && r.date == d && r.exception_type == 2)

/-- Modelled from the spec (§4.5, §9; `multi_validation.py` is missing from
`src/`): the synthesized weekday flag for weekday index `wd`.  The flag is set
when the service has at least one exception date falling on that weekday and
every occurrence of that weekday within the bound `[s, e]` is an `add`
exception with no corresponding `remove`.  (The existence conjunct pins the
policy of `test_init_missing_calendar`: a weekday with no occurrence among the
service's exception dates gets flag 0.) -/
def synthDayFlag (cd : List CalendarDateRow) (sid : String) (s e wd : ℕ) : Bool :=
  (datesOfService cd sid).any (fun d => d % 7 == wd) &&
    (rangeClosed s e).all (fun d =>
      if d % 7 == wd then hasAdd cd sid d && !(hasRemove cd sid d) else true)

/-- Modelled from the spec (§4.5, `multi_validation.py` is missing from
`src/`): synthesize one weekly-pattern row per service of an exception table;
the date bound is the min/max of that service's exception dates. -/
def synthesize_calendar (cd : List CalendarDateRow) : List CalendarRow :=
  (serviceIdsOf cd).map (fun sid =>
    let ds := datesOfService cd sid
    let s := listMin ds
    let e := listMax ds
    { service_id := sid
      monday := synthDayFlag cd sid s e 0
      tuesday := synthDayFlag cd sid s e 1
      wednesday := synthDayFlag cd sid s e 2
      thursday := synthDayFlag cd sid s e 3
      friday := synthDayFlag cd sid s e 4
      saturday := synthDayFlag cd sid s e 5
      sunday := synthDayFlag cd sid s e 6
      start_date := s
      end_date := e })

/-- Modelled from the spec (§4.5, §7; `multi_validation.py` is missing from
`src/`): calendar expansion of one feed.  A feed with neither a populated
weekly-pattern table nor a populated exception table fails with a fatal error
naming the feed; a feed with only an exception table gets a synthesized
weekly pattern. -/
def ensurePopulatedCalendar (f : Feed) : Except String Feed :=
  if f.calendar.isEmpty && f.calendar_dates.isEmpty then
    Except.error ("Both calendar and calendar_dates are empty for feed " ++ f.name)
  else if f.calendar.isEmpty then
    Except.ok { f with calendar := synthesize_calendar f.calendar_dates }
  else
    Except.ok f

/-- A feed wrapper holding the feed plus the ledger of the last validation
pass, when one has been run (the `validity_df` attribute of `GtfsInstance`). -/
structure GtfsInstance where
  feed : Feed
  validity_df : Option (List ValidityRecord)
deriving Repr, DecidableEq

/-- An ordered collection of feed instances (spec §4.6). -/
structure MultiGtfsInstance where
  instances : List GtfsInstance
deriving Repr, DecidableEq

/-- Modelled from the spec (§4.5): calendar expansion across a collection;
the first feed with neither table populated aborts the whole operation. -/
def ensure_populated_calendars :
    List GtfsInstance → Except String (List GtfsInstance)
  | [] => Except.ok []
  | g :: rest =>
    match ensurePopulatedCalendar g.feed with
    | Except.error e => Except.error e
    | Except.ok f =>
      match ensure_populated_calendars rest with
      | Except.error e => Except.error e
      | Except.ok rest2 => Except.ok ({ g with feed := f } :: rest2)

/-- The weekly pattern says the service runs on the date: some row of the
weekly-pattern table covers the date and has the date's weekday flag set. -/
def weeklyActive (f : Feed) (sid : String) (d : ℕ) : Bool :=
  f.calendar.any (fun row =>
    row.service_id == sid && decide (row.start_date ≤ d) &&
      decide (d ≤ row.end_date) && row.day (d % 7))

/-- Modelled from the spec (§4.5): a service is active on a date when the
weekly pattern covers it or an `add` exception forces membership, unless a
`remove` exception forces exclusion. -/
def serviceActiveOn (f : Feed) (sid : String) (d : ℕ) : Bool :=
  (weeklyActive f sid d || hasAdd f.calendar_dates sid d) &&
    !(hasRemove f.calendar_dates sid d)

/-- All service identifiers mentioned by either calendar table. -/
def Feed.serviceIds (f : Feed) : List String :=
  ((f.calendar.map (fun r => r.service_id)) ++
    (f.calendar_dates.map (fun r => r.service_id))).dedup

/-- The feed's global date bound (spec §4.5): the union of weekly-pattern
ranges and exception dates. -/
def Feed.allCalendarDates (f : Feed) : List ℕ :=
  (f.calendar.map (fun r => r.start_date)) ++ (f.calendar.map (fun r => r.end_date)) ++
    (f.calendar_dates.map (fun r => r.date))

/-- Modelled from the spec (§4.5): the feed's expanded active dates — every
date of the global bound on which some service is active. -/
def Feed.activeDates (f : Feed) : List ℕ :=
  (rangeClosed (listMin f.allCalendarDates) (listMax f.allCalendarDates)).filter
    (fun d => f.serviceIds.any (fun sid => serviceActiveOn f sid d))

/-- All feeds' expanded calendar dates, concatenated. -/
def MultiGtfsInstance.allActiveDates (m : MultiGtfsInstance) : List ℕ :=
  (m.instances.map (fun g => g.feed.activeDates)).flatten

/-- Modelled from the spec (§4.6, `multi_validation.py` is missing from
`src/`): `get_dates` returns either the two-element `[min, max]` across all
feeds' expanded calendars, or the full sorted set of distinct active dates. -/
def get_dates (m : MultiGtfsInstance) (return_range : Bool) : List ℕ :=
  if return_range then [listMin m.allActiveDates, listMax m.allActiveDates]
  else List.insertionSort (fun a b => a ≤ b) m.allActiveDates.dedup

/-- The warning emitted when the collection becomes empty
(`test_validate_empty_feeds`). -/
def noFeedsWarning : String := "MultiGtfsInstance has no feeds."

/-- Result of `validate_empty_feeds`: the identifiers of the empty feeds, the
resulting collection, and the warnings emitted. -/
structure EmptyFeedsResult where
  empty_feed_ids : List String
  collection : MultiGtfsInstance
  warnings : List String
deriving Repr, DecidableEq

/-- Modelled from the spec (§4.6, `multi_validation.py` is missing from
`src/`): identify the feeds with zero stop-times; when `delete` is set remove
them from the collection, warning if the collection becomes empty. -/
def validate_empty_feeds (m : MultiGtfsInstance) (delete : Bool) :
    EmptyFeedsResult :=
  let ids := (m.instances.filter (fun g => g.feed.stop_times.isEmpty)).map
    (fun g => g.feed.name)
  if delete then
    let remaining := m.instances.filter (fun g => !(g.feed.stop_times.isEmpty))
    { empty_feed_ids := ids
      collection := { instances := remaining }
      warnings := if remaining.isEmpty then [noFeedsWarning] else [] }
  else
    { empty_feed_ids := ids, collection := m, warnings := [] }

/-- The error message raised by the fast-travel validators when `is_valid` has
not been run (`test_validate_travel_between_consecutive_stops_defences`). -/
def validityMissingMsg : String :=
  "The validity_df does not exist in as an attribute of your GtfsInstance object, \nDid you forget to run the .is_valid() method?"

/-- The error message raised by the fast-travel cleaners when the gtfs has not
been validated (`test_clean_consecutive_stop_fast_travel_warnings_defence`). -/
def notValidatedMsg : String :=
  "The gtfs has not been validated, therefore nowarnings can be identified. You can pass validate=True to this function to validate the gtfs."

/-- Modelled from the spec (§4.4): run a validation pass, replacing any
previous ledger (structural checks are external and out of scope; with
`far_stops` the two fast-travel checks run). -/
def is_valid (P : Params) (w : ℕ) (far_stops : Bool) (g : GtfsInstance) :
    GtfsInstance :=
  { g with validity_df := some (if far_stops then fastTravelLedger P w g.feed else []) }

/-- Modelled from the spec and `test_validate_travel_between_consecutive_stops_defences`:
the consecutive-stop validator on a feed wrapper raises an `AttributeError`
when no validity ledger exists; otherwise it appends its record. -/
def gtfsValidateConsecutive (P : Params) (g : GtfsInstance) :
    Except String GtfsInstance :=
  match g.validity_df with
  | none => Except.error validityMissingMsg
  | some ledger =>
    let led2 := ledger ++ (validate_travel_between_consecutive_stops P g.feed).toList
    Except.ok { g with validity_df := some led2 }

/-- Modelled from the spec and the validator defence tests: the multi-stop
validator on a feed wrapper raises when no validity ledger exists. -/
def gtfsValidateMulti (P : Params) (w : ℕ) (g : GtfsInstance) :
    Except String GtfsInstance :=
  match g.validity_df with
  | none => Except.error validityMissingMsg
  | some ledger =>
    let led2 := ledger ++ (validate_travel_over_multiple_stops P w g.feed).toList
    Except.ok { g with validity_df := some led2 }

/-- Modelled from the spec (§4.4) and
`test_clean_consecutive_stop_fast_travel_warnings_defence`: cleaning the
consecutive-stop warnings raises an `AttributeError` when the gtfs has not
been validated and `validate` is not set; with `validate` it validates first. -/
def clean_consecutive_stop_fast_travel_warnings (P : Params) (w : ℕ)
    (g : GtfsInstance) (validate : Bool) : Except String GtfsInstance :=
  match g.validity_df, validate with
  | none, false => Except.error notValidatedMsg
  | _, _ =>
    let g2 := if validate then is_valid P w true g else g
    let step := cleanStep g2.feed (flaggedTripIdsConsec P g2.feed)
    Except.ok { g2 with feed := step.1 }

/-- Modelled from the spec (§4.4) and
`test_clean_multiple_stop_fast_travel_warnings_defence`: cleaning the
multi-stop warnings raises an `AttributeError` when the gtfs has not been
validated and `validate` is not set. -/
def clean_multiple_stop_fast_travel_warnings (P : Params) (w : ℕ)
    (g : GtfsInstance) (validate : Bool) : Except String GtfsInstance :=
  match g.validity_df, validate with
  | none, false => Except.error notValidatedMsg
  | _, _ =>
    let g2 := if validate then is_valid P w true g else g
    let step := cleanStep g2.feed (flaggedTripIdsMulti P w g2.feed)
    Except.ok { g2 with feed := step.1 }

/-! ### Generic helper lemmas -/

/-- The cross-multiplied threshold test of `segFlagged` agrees with the
spec's `speed = distance / elapsed; flag if speed exceeds the threshold`
formula (spec §4.1), read over the rationals, whenever `elapsed` is
positive (the non-positive case is flagged unconditionally). -/
theorem segFlagged_iff_speed (P : Params) (s : Segment) (h : 0 < s.elapsed) :
    segFlagged P s = true ↔
      (P.threshold s.route_type : ℚ) < (s.distance : ℚ) / (s.elapsed : ℚ) := by
  have he : (0 : ℚ) < (s.elapsed : ℚ) := by exact_mod_cast h
  rw [segFlagged]
  have h1 : decide (s.elapsed ≤ 0) = false := by simp; omega
  rw [h1]
  simp only [Bool.false_or, decide_eq_true_eq]
  rw [lt_div_iff₀ he]
  exact_mod_cast Iff.rfl

theorem flaggedIdxFrom_eq_nil_iff {α : Type} (p : α → Bool) (l : List α) (i : ℕ) :
    flaggedIdxFrom p i l = [] ↔ ∀ a ∈ l, p a = false := by
  induction l generalizing i with
  | nil => simp [flaggedIdxFrom]
  | cons a rest ih =>
    simp only [flaggedIdxFrom]
    by_cases hp : p a
    · simp [hp]
    · simp only [hp, if_neg, Bool.false_eq_true, not_false_eq_true, List.mem_cons]
      rw [ih (i + 1)]
      constructor
      · rintro h b (rfl | hb)
        · simpa using hp
        · exact h b hb
      · intro h b hb
        exact h b (Or.inr hb)

theorem mem_flaggedIdxFrom {α : Type} (p : α → Bool) (l : List α) (i j : ℕ) :
    j ∈ flaggedIdxFrom p i l ↔
      ∃ k, ∃ h : k < l.length, j = i + k ∧ p (l.get ⟨k, h⟩) = true := by
  induction l generalizing i with
  | nil => simp [flaggedIdxFrom]
  | cons a rest ih =>
    simp only [flaggedIdxFrom]
    have step : j ∈ flaggedIdxFrom p (i + 1) rest ↔
        ∃ k, ∃ h : k + 1 < rest.length + 1, j = i + (k + 1) ∧
          p ((a :: rest).get ⟨k + 1, h⟩) = true := by
      rw [ih (i + 1)]
      constructor
      · rintro ⟨k, hk, rfl, hpk⟩
        exact ⟨k, by omega, by omega, by simpa using hpk⟩
      · rintro ⟨k, hk, rfl, hpk⟩
        exact ⟨k, by omega, by omega, by simpa using hpk⟩
    by_cases hp : p a
    · simp only [hp, if_true, List.mem_cons]
      rw [step]
      constructor
      · rintro (rfl | ⟨k, hk, rfl, hpk⟩)
        · exact ⟨0, by simp, by omega, by simpa using hp⟩
        · exact ⟨k + 1, hk, rfl, hpk⟩
      · rintro ⟨k, hk, rfl, hpk⟩
        match k with
        | 0 => simp
        | k + 1 => exact Or.inr ⟨k, hk, rfl, hpk⟩
    · simp only [hp, if_neg, Bool.false_eq_true, not_false_eq_true]
      rw [step]
      constructor
      · rintro ⟨k, hk, rfl, hpk⟩
        exact ⟨k + 1, hk, rfl, hpk⟩
      · rintro ⟨k, hk, rfl, hpk⟩
        match k with
        | 0 => simp only [List.get] at hpk; exact absurd hpk (by simpa using hp)
        | k + 1 => exact ⟨k, hk, rfl, hpk⟩

theorem mem_flaggedIdx {α : Type} (p : α → Bool) (l : List α) (j : ℕ) :
    j ∈ flaggedIdx p l ↔ ∃ h : j < l.length, p (l.get ⟨j, h⟩) = true := by
  rw [flaggedIdx, mem_flaggedIdxFrom]
  constructor
  · rintro ⟨k, hk, rfl, hpk⟩
    exact ⟨by omega, by simpa using hpk⟩
  · rintro ⟨h, hp⟩
    exact ⟨j, h, by omega, hp⟩

theorem flaggedIdx_eq_nil_iff {α : Type} (p : α → Bool) (l : List α) :
    flaggedIdx p l = [] ↔ ∀ a ∈ l, p a = false :=
  flaggedIdxFrom_eq_nil_iff p l 0

theorem mem_of_mem_pairsOf {α : Type} {l : List α} {ab : α × α}
    (h : ab ∈ pairsOf l) : ab.1 ∈ l ∧ ab.2 ∈ l := by
  induction l with
  | nil => simp [pairsOf] at h
  | cons a rest ih =>
    match rest, h with
    | b :: t, h =>
      rw [pairsOf, List.mem_cons] at h
      rcases h with rfl | h
      · exact ⟨List.mem_cons_self .., List.mem_cons_of_mem _ (List.mem_cons_self ..)⟩
      · have := ih h
        exact ⟨List.mem_cons_of_mem _ this.1, List.mem_cons_of_mem _ this.2⟩

theorem pairwise_pairsOf_fst {α : Type} {r : α → α → Prop} {l : List α}
    (h : l.Pairwise r) : (pairsOf l).Pairwise (fun x y => r x.1 y.1) := by
  induction l with
  | nil => simp [pairsOf]
  | cons a rest ih =>
    match rest with
    | [] => simp [pairsOf]
    | b :: t =>
      rw [pairsOf]
      refine List.Pairwise.cons ?_ (ih h.tail)
      intro y hy
      exact (List.pairwise_cons.1 h).1 y.1 (mem_of_mem_pairsOf hy).1

theorem find?_filter_eq {α : Type} (l : List α) (p q : α → Bool)
    (h : ∀ a, p a = true → q a = true) : (l.filter q).find? p = l.find? p := by
  induction l with
  | nil => simp
  | cons a rest ih =>
    by_cases hq : q a
    · by_cases hp : p a
      · simp [List.filter_cons, hq, List.find?_cons, hp]
      · simp only [List.filter_cons, hq, if_true, List.find?_cons, hp]
        simpa [hp] using ih
    · have hp : p a = false := by
        cases hpa : p a
        · rfl
        · exact absurd (h a hpa) (by simpa using hq)
      simp only [List.filter_cons, hq, Bool.false_eq_true, if_neg, not_false_eq_true,
        List.find?_cons, hp]
      simpa [hp] using ih

theorem map_filter_comp {α β : Type} (g : α → β) (p : β → Bool) (l : List α) :
    (l.filter (fun a => p (g a))).map g = (l.map g).filter p := by
  induction l with
  | nil => simp
  | cons a rest ih =>
    by_cases hp : p (g a) <;> simp [List.filter_cons, hp, ih]

/-! ### The string order is a decidable linear order -/

theorem charListLe_refl (l : List Char) : charListLe l l = true := by
  induction l with
  | nil => rfl
  | cons a as ih => simp [charListLe, ih]

theorem strLe_refl (a : String) : strLe a a := charListLe_refl a.data

theorem charListLe_total (l1 l2 : List Char) :
    charListLe l1 l2 = true ∨ charListLe l2 l1 = true := by
  induction l1 generalizing l2 with
  | nil => left; rfl
  | cons a as ih =>
    match l2 with
    | [] => right; rfl
    | b :: bs =>
      by_cases hab : a.toNat < b.toNat
      · left; simp [charListLe, hab]
      · by_cases hba : b.toNat < a.toNat
        · right; simp [charListLe, hba]
        · rcases ih bs with h | h
          · left; simpa [charListLe, hab, hba] using h
          · right; simpa [charListLe, hab, hba] using h

theorem charListLe_trans {l1 l2 l3 : List Char} (h12 : charListLe l1 l2 = true)
    (h23 : charListLe l2 l3 = true) : charListLe l1 l3 = true := by
  induction l1 generalizing l2 l3 with
  | nil => rfl
  | cons a as ih =>
    match l2, l3 with
    | [], _ => simp [charListLe] at h12
    | _ :: _, [] => simp [charListLe] at h23
    | b :: bs, c :: cs =>
      rw [charListLe] at h12 h23 ⊢
      by_cases hab : a.toNat < b.toNat
      · by_cases hbc : b.toNat < c.toNat
        · have : a.toNat < c.toNat := Nat.lt_trans hab hbc
          simp [this]
        · by_cases hcb : c.toNat < b.toNat
          · simp [hbc, hcb] at h23
          · have hbceq : b.toNat = c.toNat := Nat.le_antisymm (Nat.le_of_not_lt hcb) (Nat.le_of_not_lt hbc)
            simp [hbceq ▸ hab]
      · by_cases hba : b.toNat < a.toNat
        · simp [hab, hba] at h12
        · have habeq : a.toNat = b.toNat := Nat.le_antisymm (Nat.le_of_not_lt hba) (Nat.le_of_not_lt hab)
          simp only [hab, hba, if_false, if_neg, not_false_eq_true] at h12
          by_cases hbc : b.toNat < c.toNat
          · simp [habeq ▸ hbc]
          · by_cases hcb : c.toNat < b.toNat
            · simp [hbc, hcb] at h23
            · simp only [hbc, hcb, if_false, if_neg, not_false_eq_true] at h23
              have h13 := ih (by simpa [hab, hba] using h12) (by simpa [hbc, hcb] using h23)
              have hac1 : ¬ a.toNat < c.toNat := by omega
              have hac2 : ¬ c.toNat < a.toNat := by omega
              simp [hac1, hac2, h13]

theorem charListLe_antisymm {l1 l2 : List Char} (h12 : charListLe l1 l2 = true)
    (h21 : charListLe l2 l1 = true) : l1 = l2 := by
  induction l1 generalizing l2 with
  | nil =>
    match l2 with
    | [] => rfl
    | _ :: _ => simp [charListLe] at h21
  | cons a as ih =>
    match l2 with
    | [] => simp [charListLe] at h12
    | b :: bs =>
      rw [charListLe] at h12 h21
      by_cases hab : a.toNat < b.toNat
      · have : ¬ b.toNat < a.toNat := Nat.lt_asymm hab
        simp [hab, this] at h21
      · by_cases hba : b.toNat < a.toNat
        · simp [hab, hba] at h12
        · have habeq : a.toNat = b.toNat := Nat.le_antisymm (Nat.le_of_not_lt hba) (Nat.le_of_not_lt hab)
          have haeq : a = b := Char.eq_of_val_eq (UInt32.ext habeq)
          have hrest := ih (by simpa [hab, hba] using h12) (by simpa [hab, hba] using h21)
          rw [haeq, hrest]

instance : IsTotal String strLe := ⟨fun a b => charListLe_total a.data b.data⟩

instance : IsTrans String strLe := ⟨fun _ _ _ h1 h2 => charListLe_trans h1 h2⟩

instance : IsAntisymm String strLe :=
  ⟨fun a b h1 h2 => by
    cases a; cases b
    exact congrArg String.mk (charListLe_antisymm h1 h2)⟩

/-! ### Ordering of the synthetic per-segment table -/

/-- The ordering of the synthetic per-segment table (spec §4.1, §9): first by
trip identifier, then by the earlier stop's sequence position. -/
def segLe (a b : Segment) : Prop :=
  strLe a.trip_id b.trip_id ∧ (a.trip_id = b.trip_id → a.seqA ≤ b.seqA)

instance : IsTotal StopTime stLe :=
  ⟨fun a b => Nat.le_total a.stop_sequence b.stop_sequence⟩

instance : IsTrans StopTime stLe :=
  ⟨fun _ _ _ h1 h2 => Nat.le_trans h1 h2⟩

theorem sorted_stopTimesOfTrip (f : Feed) (tid : String) :
    (f.stopTimesOfTrip tid).Pairwise stLe :=
  List.sorted_insertionSort stLe _

theorem mem_stopTimesOfTrip {f : Feed} {tid : String} {st : StopTime}
    (h : st ∈ f.stopTimesOfTrip tid) : st ∈ f.stop_times ∧ st.trip_id = tid := by
  rw [Feed.stopTimesOfTrip] at h
  have h2 := (List.perm_insertionSort stLe _).mem_iff.1 h
  rw [List.mem_filter] at h2
  exact ⟨h2.1, by simpa using h2.2⟩

theorem trip_id_of_mem_tripSegments {P : Params} {f : Feed} {tid : String}
    {s : Segment} (h : s ∈ tripSegments P f tid) : s.trip_id = tid := by
  rw [tripSegments, List.mem_map] at h
  obtain ⟨ab, hab, rfl⟩ := h
  exact (mem_stopTimesOfTrip (mem_of_mem_pairsOf hab).1).2

theorem pairwise_tripSegments (P : Params) (f : Feed) (tid : String) :
    (tripSegments P f tid).Pairwise segLe := by
  rw [tripSegments, List.pairwise_map]
  have h := pairwise_pairsOf_fst (sorted_stopTimesOfTrip f tid)
  refine List.Pairwise.imp_of_mem ?_ h
  intro ab cd hab hcd hle
  have heq : ab.1.trip_id = cd.1.trip_id := by
    rw [(mem_stopTimesOfTrip (mem_of_mem_pairsOf hab).1).2,
      (mem_stopTimesOfTrip (mem_of_mem_pairsOf hcd).1).2]
  refine ⟨?_, fun _ => hle⟩
  show strLe ab.1.trip_id cd.1.trip_id
  rw [heq]
  exact strLe_refl cd.1.trip_id

theorem tripIds_sorted (f : Feed) : (f.tripIds).Pairwise strLe :=
  List.sorted_insertionSort _ _

theorem tripIds_nodup (f : Feed) : f.tripIds.Nodup :=
  (List.perm_insertionSort _ _).nodup_iff.2 (List.nodup_dedup _)

theorem pairwise_fullStopSchedule (P : Params) (f : Feed) :
    (fullStopSchedule P f).Pairwise segLe := by
  rw [fullStopSchedule, List.pairwise_flatten]
  constructor
  · intro l hl
    rw [List.mem_map] at hl
    obtain ⟨tid, _, rfl⟩ := hl
    exact pairwise_tripSegments P f tid
  · rw [List.pairwise_map]
    have h := (tripIds_sorted f).and (tripIds_nodup f)
    refine h.imp ?_
    rintro t1 t2 ⟨hle, hne⟩ x hx y hy
    rw [segLe, trip_id_of_mem_tripSegments hx, trip_id_of_mem_tripSegments hy]
    exact ⟨hle, fun heq => absurd heq hne⟩

/-! ### C1: the consecutive-stop check -/

/-- C1.  For every feed, the consecutive-stop fast-travel check emits no
record when no segment is flagged; when at least one segment is flagged it
emits a ValidityRecord with table name `"full_stop_schedule"`, message
`"Fast Travel Between Consecutive Stops"` and kind warning, whose rows are
the flagged rows' integer positions in the synthetic per-segment table,
which is ordered first by trip identifier then by the earlier stop's
sequence position. -/
theorem consecutive_stops_check_spec (P : Params) (f : Feed) :
    (fullStopSchedule P f).Pairwise segLe
    ∧ (validate_travel_between_consecutive_stops P f = none ↔
        ∀ s ∈ fullStopSchedule P f, segFlagged P s = false)
    ∧ (∀ r, validate_travel_between_consecutive_stops P f = some r →
        r.kind = RecordKind.warning
        ∧ r.message = "Fast Travel Between Consecutive Stops"
        ∧ r.table = "full_stop_schedule"
        ∧ ∀ j, (j ∈ r.rows ↔ ∃ h : j < (fullStopSchedule P f).length,
            segFlagged P ((fullStopSchedule P f).get ⟨j, h⟩) = true)) := by
  have key : validate_travel_between_consecutive_stops P f =
      if (flaggedIdx (segFlagged P) (fullStopSchedule P f)).isEmpty then none
      else some { kind := RecordKind.warning
                  message := "Fast Travel Between Consecutive Stops"
                  table := "full_stop_schedule"
                  rows := flaggedIdx (segFlagged P) (fullStopSchedule P f) } := rfl
  refine ⟨pairwise_fullStopSchedule P f, ?_, ?_⟩
  · constructor
    · intro h
      rw [key] at h
      by_cases hemp : (flaggedIdx (segFlagged P) (fullStopSchedule P f)).isEmpty
      · rw [List.isEmpty_iff] at hemp
        exact (flaggedIdx_eq_nil_iff _ _).1 hemp
      · simp [hemp] at h
    · intro hall
      have hnil : flaggedIdx (segFlagged P) (fullStopSchedule P f) = [] :=
        (flaggedIdx_eq_nil_iff _ _).2 hall
      rw [key, hnil]
      rfl
  · intro r hr
    rw [key] at hr
    by_cases hemp : (flaggedIdx (segFlagged P) (fullStopSchedule P f)).isEmpty
    · simp [hemp] at hr
    · simp only [hemp, Bool.false_eq_true, if_neg, not_false_eq_true,
        Option.some.injEq] at hr
      subst hr
      refine ⟨rfl, rfl, rfl, ?_⟩
      intro j
      exact mem_flaggedIdx (segFlagged P) (fullStopSchedule P f) j

/-- Parameters used by the concrete witnesses: every pair of stops is 500
metres apart, every route_type's threshold is 30 (spec §8's first scenario:
500 m scheduled 1 second apart, threshold well below the implied speed). -/
def P0 : Params := ⟨fun _ _ => 500, fun _ => 30⟩

/-- A concrete feed with one trip whose two stops are scheduled 1 second
apart. -/
def feedFast : Feed :=
  { name := "newport"
    stops := [⟨"A", 0, 0⟩, ⟨"B", 0, 1⟩]
    stop_times := [⟨"t1", "A", 1, 0, 0⟩, ⟨"t1", "B", 2, 1, 1⟩]
    trips := [⟨"t1", "r1", "s1", none⟩]
    routes := [⟨"r1", 3⟩]
    calendar := []
    calendar_dates := []
    shapes := ⟨true, []⟩ }

/-- The record the consecutive-stop check produces on `feedFast`. -/
def fastRecord : ValidityRecord :=
  { kind := RecordKind.warning
    message := "Fast Travel Between Consecutive Stops"
    table := "full_stop_schedule"
    rows := [0] }

theorem consecutive_stops_check_spec_witness :
    validate_travel_between_consecutive_stops P0 feedFast = some fastRecord
    ∧ (fastRecord.kind = RecordKind.warning
      ∧ fastRecord.message = "Fast Travel Between Consecutive Stops"
      ∧ fastRecord.table = "full_stop_schedule"
      ∧ ∀ j, (j ∈ fastRecord.rows ↔
          ∃ h : j < (fullStopSchedule P0 feedFast).length,
            segFlagged P0 ((fullStopSchedule P0 feedFast).get ⟨j, h⟩) = true)) :=
  ⟨by decide, (consecutive_stops_check_spec P0 feedFast).2.2 fastRecord (by decide)⟩

/-! ### C2: the multi-stop check -/

theorem slidingWindows_eq_nil {α : Type} {w : ℕ} {l : List α}
    (h : l.length < w) : slidingWindows w l = [] := by
  cases l with
  | nil => rfl
  | cons a rest =>
    rw [slidingWindows, if_neg (by omega)]

theorem length_of_mem_slidingWindows {α : Type} {w : ℕ} {l : List α}
    {win : List α} (h : win ∈ slidingWindows w l) :
    win.length = w ∧ w ≤ l.length := by
  induction l with
  | nil => simp [slidingWindows] at h
  | cons a rest ih =>
    rw [slidingWindows] at h
    by_cases hw : w ≤ (a :: rest).length
    · rw [if_pos hw, List.mem_cons] at h
      rcases h with rfl | h
      · exact ⟨by rw [List.length_take]; omega, hw⟩
      · have := ih h
        exact ⟨this.1, by simp; omega⟩
    · rw [if_neg hw] at h
      simp at h

theorem pairsOf_map_sum_eq_range {α : Type} (g : α × α → ℤ) (d0 : α)
    (l : List α) :
    ((pairsOf l).map g).sum =
      ((List.range (l.length - 1)).map
        (fun i => g (l.getD i d0, l.getD (i + 1) d0))).sum := by
  induction l with
  | nil => rfl
  | cons a rest ih =>
    match rest with
    | [] => rfl
    | b :: t =>
      rw [pairsOf]
      have hlen : (a :: b :: t).length - 1 = (b :: t).length - 1 + 1 := by
        simp
      rw [hlen, List.range_succ_eq_map]
      simp only [List.map_cons, List.map_map, List.sum_cons]
      rw [ih]
      congr 1

theorem ite_flagged_eq_none_iff {α : Type} (p : α → Bool) (l : List α)
    (v : ValidityRecord) :
    ((if (flaggedIdx p l).isEmpty then none else some v) = none) ↔
      ∀ a ∈ l, p a = false := by
  constructor
  · intro h
    by_cases hemp : (flaggedIdx p l).isEmpty
    · rw [List.isEmpty_iff] at hemp
      exact (flaggedIdx_eq_nil_iff _ _).1 hemp
    · simp [hemp] at h
  · intro hall
    rw [(flaggedIdx_eq_nil_iff p l).2 hall]
    rfl

theorem ite_flagged_eq_some {α : Type} {p : α → Bool} {l : List α}
    {v r : ValidityRecord}
    (h : (if (flaggedIdx p l).isEmpty then none else some v) = some r) :
    r = v := by
  by_cases hemp : (flaggedIdx p l).isEmpty
  · simp [hemp] at h
  · simp only [hemp, Bool.false_eq_true, if_neg, not_false_eq_true,
      Option.some.injEq] at h
    exact h.symm

/-- C2.  For every feed and window size `w`, the multi-stop check skips,
without error, every trip with fewer than `w` stop-times; each window's
cumulative distance is the sum of pairwise consecutive great-circle distances
inside the window and its cumulative elapsed time is the last stop-time's
departure minus the first stop-time's arrival; when any window is flagged the
check emits a ValidityRecord with table name `"multiple_stops_invalid"`,
message `"Fast Travel Over Multiple Stops"` and kind warning. -/
theorem multiple_stops_check_spec (P : Params) (w : ℕ) (f : Feed) :
    (∀ tid, (f.stopTimesOfTrip tid).length < w → tripWindows w f tid = [])
    ∧ (∀ r ∈ multipleStopsTable P w f, w ≤ (f.stopTimesOfTrip r.trip_id).length)
    ∧ (∀ tid, ∀ win ∈ tripWindows w f tid,
        win.length = w
        ∧ (mkWindowRow P f tid win).distance =
            ((List.range (w - 1)).map (fun i =>
              P.dist (f.stopOf (win.getD i stDefault).stop_id)
                (f.stopOf (win.getD (i + 1) stDefault).stop_id))).sum
        ∧ ∀ hne : win ≠ [],
            (mkWindowRow P f tid win).elapsed =
              (win.getLast hne).departure_time - (win.head hne).arrival_time)
    ∧ (validate_travel_over_multiple_stops P w f = none ↔
        ∀ r ∈ multipleStopsTable P w f, winFlagged P r = false)
    ∧ (∀ r, validate_travel_over_multiple_stops P w f = some r →
        r.kind = RecordKind.warning
        ∧ r.message = "Fast Travel Over Multiple Stops"
        ∧ r.table = "multiple_stops_invalid"
        ∧ ∀ j, (j ∈ r.rows ↔ ∃ h : j < (multipleStopsTable P w f).length,
            winFlagged P ((multipleStopsTable P w f).get ⟨j, h⟩) = true)) := by
  have key : validate_travel_over_multiple_stops P w f =
      if (flaggedIdx (winFlagged P) (multipleStopsTable P w f)).isEmpty then none
      else some { kind := RecordKind.warning
                  message := "Fast Travel Over Multiple Stops"
                  table := "multiple_stops_invalid"
                  rows := flaggedIdx (winFlagged P) (multipleStopsTable P w f) } := rfl
  refine ⟨?_, ?_, ?_, ?_, ?_⟩
  · intro tid h
    exact slidingWindows_eq_nil h
  · intro r hr
    rw [multipleStopsTable, List.mem_flatten] at hr
    obtain ⟨rows, hrows, hr⟩ := hr
    rw [List.mem_map] at hrows
    obtain ⟨tid, _, rfl⟩ := hrows
    rw [List.mem_map] at hr
    obtain ⟨win, hwin, rfl⟩ := hr
    exact (length_of_mem_slidingWindows hwin).2
  · intro tid win hwin
    refine ⟨(length_of_mem_slidingWindows hwin).1, ?_, ?_⟩
    · show ((pairsOf win).map _).sum = _
      rw [pairsOf_map_sum_eq_range _ stDefault win,
        (length_of_mem_slidingWindows hwin).1]
    · intro hne
      show ((win.getLast?).map (fun st => st.departure_time)).getD 0 -
          ((win.head?).map (fun st => st.arrival_time)).getD 0 = _
      rw [List.getLast?_eq_getLast win hne, List.head?_eq_head hne]
      rfl
  · rw [key]
    exact ite_flagged_eq_none_iff _ _ _
  · intro r hr
    rw [key] at hr
    have := ite_flagged_eq_some hr
    subst this
    refine ⟨rfl, rfl, rfl, ?_⟩
    intro j
    exact mem_flaggedIdx (winFlagged P) (multipleStopsTable P w f) j

/-- A concrete feed with one trip of three stops, each hop fast. -/
def feedMulti : Feed :=
  { name := "newport"
    stops := [⟨"A", 0, 0⟩, ⟨"B", 0, 1⟩, ⟨"C", 0, 2⟩]
    stop_times := [⟨"t1", "A", 1, 0, 0⟩, ⟨"t1", "B", 2, 0, 0⟩, ⟨"t1", "C", 3, 1, 1⟩]
    trips := [⟨"t1", "r1", "s1", none⟩]
    routes := [⟨"r1", 3⟩]
    calendar := []
    calendar_dates := []
    shapes := ⟨true, []⟩ }

/-- The record the multi-stop check produces on `feedMulti` with window 3. -/
def multiRecord : ValidityRecord :=
  { kind := RecordKind.warning
    message := "Fast Travel Over Multiple Stops"
    table := "multiple_stops_invalid"
    rows := [0] }

theorem multiple_stops_check_spec_witness :
    (feedFast.stopTimesOfTrip "t1").length < 3
    ∧ tripWindows 3 feedFast "t1" = []
    ∧ validate_travel_over_multiple_stops P0 3 feedMulti = some multiRecord
    ∧ multiRecord.kind = RecordKind.warning
    ∧ multiRecord.message = "Fast Travel Over Multiple Stops"
    ∧ multiRecord.table = "multiple_stops_invalid" :=
  ⟨by decide, (multiple_stops_check_spec P0 3 feedFast).1 "t1" (by decide),
    by decide,
    ((multiple_stops_check_spec P0 3 feedMulti).2.2.2.2 multiRecord (by decide)).1,
    ((multiple_stops_check_spec P0 3 feedMulti).2.2.2.2 multiRecord (by decide)).2.1,
    ((multiple_stops_check_spec P0 3 feedMulti).2.2.2.2 multiRecord (by decide)).2.2.1⟩

/-! ### C3: degenerate segments -/

/-- C3.  For every segment considered by the consecutive-stop check, if
`elapsed ≤ 0` the segment is flagged unconditionally, independently of the
distance between the stops: any segment differing only in its distance is
flagged as well. -/
theorem degenerate_segment_always_flagged (P : Params) (f : Feed) (s : Segment)
    (hmem : s ∈ fullStopSchedule P f) (h : s.elapsed ≤ 0) :
    segFlagged P s = true
    ∧ ∀ d : ℤ, segFlagged P { s with distance := d } = true := by
  constructor
  · simp [segFlagged, h]
  · intro d
    simp [segFlagged, h]

/-- Parameters whose distance function is zero on identical stops. -/
def P1 : Params :=
  ⟨fun a b => if a.stop_id == b.stop_id then 0 else 500, fun _ => 30⟩

/-- A feed whose single trip has two stop-times at the same stop with the
same timestamps: the zero-distance, zero-elapsed degenerate case. -/
def feedDegenerate : Feed :=
  { name := "degenerate"
    stops := [⟨"A", 0, 0⟩]
    stop_times := [⟨"t1", "A", 1, 100, 100⟩, ⟨"t1", "A", 2, 100, 100⟩]
    trips := [⟨"t1", "r1", "s1", none⟩]
    routes := [⟨"r1", 3⟩]
    calendar := []
    calendar_dates := []
    shapes := ⟨true, []⟩ }

/-- The zero-distance, zero-elapsed segment of `feedDegenerate`. -/
def segDegenerate : Segment := ⟨"t1", 3, 1, 2, 0, 0⟩

theorem degenerate_segment_always_flagged_witness :
    segDegenerate ∈ fullStopSchedule P1 feedDegenerate
    ∧ segDegenerate.elapsed ≤ 0
    ∧ segDegenerate.distance = 0
    ∧ segFlagged P1 segDegenerate = true
    ∧ segFlagged P1 { segDegenerate with distance := 987654 } = true :=
  ⟨by decide, by decide, by decide,
    (degenerate_segment_always_flagged P1 feedDegenerate segDegenerate
      (by decide) (by decide)).1,
    (degenerate_segment_always_flagged P1 feedDegenerate segDegenerate
      (by decide) (by decide)).2 987654⟩

/-! ### C6: cleaning monotonicity -/

theorem routeTypeOfTrip_drop_trips {f : Feed} {ids : List String} {tid : String}
    (h : ids.contains tid = false) :
    (drop_trips f ids).routeTypeOfTrip tid = f.routeTypeOfTrip tid := by
  rw [Feed.routeTypeOfTrip, Feed.routeTypeOfTrip]
  have hfind : (drop_trips f ids).trips.find? (fun t => t.trip_id == tid) =
      f.trips.find? (fun t => t.trip_id == tid) := by
    show (f.trips.filter _).find? _ = _
    apply find?_filter_eq
    intro t ht
    have : t.trip_id = tid := by simpa using ht
    rw [this, h]
    rfl
  rw [hfind]
  rfl

theorem stopTimesOfTrip_drop_trips {f : Feed} {ids : List String} {tid : String}
    (h : ids.contains tid = false) :
    (drop_trips f ids).stopTimesOfTrip tid = f.stopTimesOfTrip tid := by
  rw [Feed.stopTimesOfTrip, Feed.stopTimesOfTrip]
  congr 1
  show (f.stop_times.filter _).filter _ = _
  rw [List.filter_filter]
  apply List.filter_congr
  intro st _
  by_cases hst : st.trip_id == tid
  · have heq : st.trip_id = tid := by simpa using hst
    have hmem : tid ∉ ids := by simpa using h
    simp [hst, heq, hmem]
  · simp [hst]

theorem tripSegments_drop_trips {P : Params} {f : Feed} {ids : List String}
    {tid : String} (h : ids.contains tid = false) :
    tripSegments P (drop_trips f ids) tid = tripSegments P f tid := by
  rw [tripSegments, tripSegments, stopTimesOfTrip_drop_trips h]
  apply List.map_congr_left
  intro ab hab
  have htid : ab.1.trip_id = tid := (mem_stopTimesOfTrip (mem_of_mem_pairsOf hab).1).2
  have hroute : (drop_trips f ids).routeTypeOfTrip ab.1.trip_id =
      f.routeTypeOfTrip ab.1.trip_id := routeTypeOfTrip_drop_trips (htid ▸ h)
  rw [mkSegment, mkSegment, hroute]
  rfl

theorem tripIds_drop_trips (f : Feed) (ids : List String) :
    (drop_trips f ids).tripIds =
      f.tripIds.filter (fun t => !(ids.contains t)) := by
  have hnd1 : (drop_trips f ids).tripIds.Nodup :=
    (List.perm_insertionSort strLe _).nodup_iff.2 (List.nodup_dedup _)
  have hnd2 : (f.tripIds.filter (fun t => !(ids.contains t))).Nodup :=
    (tripIds_nodup f).filter _
  apply List.eq_of_perm_of_sorted (r := strLe)
  · apply (List.perm_ext_iff_of_nodup hnd1 hnd2).2
    intro t
    rw [Feed.tripIds, (List.perm_insertionSort strLe _).mem_iff, List.mem_dedup,
      List.mem_filter, Feed.tripIds, (List.perm_insertionSort strLe _).mem_iff,
      List.mem_dedup]
    show t ∈ (f.stop_times.filter (fun st => !(ids.contains st.trip_id))).map
        (fun st => st.trip_id) ↔ _
    simp only [List.mem_map, List.mem_filter]
    constructor
    · rintro ⟨st, ⟨hmem, hkeep⟩, rfl⟩
      exact ⟨⟨st, hmem, rfl⟩, hkeep⟩
    · rintro ⟨⟨st, hmem, rfl⟩, hkeep⟩
      exact ⟨st, ⟨hmem, hkeep⟩, rfl⟩
  · exact List.sorted_insertionSort _ _
  · exact (List.sorted_insertionSort _ _).filter _

theorem fullStopSchedule_drop_trips (P : Params) (f : Feed) (ids : List String) :
    fullStopSchedule P (drop_trips f ids) =
      ((f.tripIds.filter (fun t => !(ids.contains t))).map
        (tripSegments P f)).flatten := by
  rw [fullStopSchedule, tripIds_drop_trips]
  congr 1
  apply List.map_congr_left
  intro tid htid
  rw [List.mem_filter] at htid
  have : ids.contains tid = false := by simpa using htid.2
  exact tripSegments_drop_trips this

theorem validate_consec_eq_some (P : Params) (f : Feed)
    (hne : flaggedIdx (segFlagged P) (fullStopSchedule P f) ≠ []) :
    validate_travel_between_consecutive_stops P f =
      some { kind := RecordKind.warning
             message := "Fast Travel Between Consecutive Stops"
             table := "full_stop_schedule"
             rows := flaggedIdx (segFlagged P) (fullStopSchedule P f) } := by
  show (if (flaggedIdx (segFlagged P) (fullStopSchedule P f)).isEmpty then none
    else some _) = some _
  rw [if_neg (by simpa [List.isEmpty_iff] using hne)]

theorem trip_mem_flaggedTripIdsConsec {P : Params} {f : Feed} {s : Segment}
    (hs : s ∈ fullStopSchedule P f) (hflag : segFlagged P s = true) :
    s.trip_id ∈ flaggedTripIdsConsec P f := by
  obtain ⟨⟨i, hi⟩, rfl⟩ := List.mem_iff_get.1 hs
  have hidx : i ∈ flaggedIdx (segFlagged P) (fullStopSchedule P f) :=
    (mem_flaggedIdx _ _ i).2 ⟨hi, hflag⟩
  have hne : flaggedIdx (segFlagged P) (fullStopSchedule P f) ≠ [] := by
    intro hnil
    rw [hnil] at hidx
    simp at hidx
  rw [flaggedTripIdsConsec, validate_consec_eq_some P f hne]
  rw [List.mem_filterMap]
  exact ⟨i, hidx, by rw [List.get?_eq_get hi]; rfl⟩

theorem tripWindows_drop_trips {w : ℕ} {f : Feed} {ids : List String}
    {tid : String} (h : ids.contains tid = false) :
    tripWindows w (drop_trips f ids) tid = tripWindows w f tid := by
  rw [tripWindows, tripWindows, stopTimesOfTrip_drop_trips h]

theorem mkWindowRow_drop_trips {P : Params} {f : Feed} {ids : List String}
    {tid : String} (h : ids.contains tid = false) (win : List StopTime) :
    mkWindowRow P (drop_trips f ids) tid win = mkWindowRow P f tid win := by
  rw [mkWindowRow, mkWindowRow, routeTypeOfTrip_drop_trips h]
  rfl

theorem multipleStopsTable_drop_trips (P : Params) (w : ℕ) (f : Feed)
    (ids : List String) :
    multipleStopsTable P w (drop_trips f ids) =
      ((f.tripIds.filter (fun t => !(ids.contains t))).map
        (fun tid => (tripWindows w f tid).map (mkWindowRow P f tid))).flatten := by
  rw [multipleStopsTable, tripIds_drop_trips]
  congr 1
  apply List.map_congr_left
  intro tid htid
  rw [List.mem_filter] at htid
  have hk : ids.contains tid = false := by simpa using htid.2
  rw [tripWindows_drop_trips hk]
  apply List.map_congr_left
  intro win _
  exact mkWindowRow_drop_trips hk win

theorem validate_multi_eq_some (P : Params) (w : ℕ) (f : Feed)
    (hne : flaggedIdx (winFlagged P) (multipleStopsTable P w f) ≠ []) :
    validate_travel_over_multiple_stops P w f =
      some { kind := RecordKind.warning
             message := "Fast Travel Over Multiple Stops"
             table := "multiple_stops_invalid"
             rows := flaggedIdx (winFlagged P) (multipleStopsTable P w f) } := by
  show (if (flaggedIdx (winFlagged P) (multipleStopsTable P w f)).isEmpty then none
    else some _) = some _
  rw [if_neg (by simpa [List.isEmpty_iff] using hne)]

theorem trip_mem_flaggedTripIdsMulti {P : Params} {w : ℕ} {f : Feed}
    {r : WindowRow} (hr : r ∈ multipleStopsTable P w f)
    (hflag : winFlagged P r = true) :
    r.trip_id ∈ flaggedTripIdsMulti P w f := by
  obtain ⟨⟨i, hi⟩, rfl⟩ := List.mem_iff_get.1 hr
  have hidx : i ∈ flaggedIdx (winFlagged P) (multipleStopsTable P w f) :=
    (mem_flaggedIdx _ _ i).2 ⟨hi, hflag⟩
  have hne : flaggedIdx (winFlagged P) (multipleStopsTable P w f) ≠ [] := by
    intro hnil
    rw [hnil] at hidx
    simp at hidx
  rw [flaggedTripIdsMulti, validate_multi_eq_some P w f hne]
  rw [List.mem_filterMap]
  exact ⟨i, hidx, by rw [List.get?_eq_get hi]; rfl⟩

theorem trip_id_of_mem_windows {P : Params} {f : Feed} {w : ℕ} {tid : String}
    {r : WindowRow} (h : r ∈ (tripWindows w f tid).map (mkWindowRow P f tid)) :
    r.trip_id = tid := by
  rw [List.mem_map] at h
  obtain ⟨win, _, rfl⟩ := h
  rfl

theorem validate_consec_table {P : Params} {f2 : Feed} {r : ValidityRecord}
    (h : validate_travel_between_consecutive_stops P f2 = some r) :
    r.table = "full_stop_schedule" := by
  by_cases hemp : (flaggedIdx (segFlagged P) (fullStopSchedule P f2)).isEmpty
  · have hnone : validate_travel_between_consecutive_stops P f2 = none := by
      show (if _ then none else some _) = none
      rw [if_pos hemp]
    rw [hnone] at h
    cases h
  · have hne : flaggedIdx (segFlagged P) (fullStopSchedule P f2) ≠ [] := by
      simpa [List.isEmpty_iff] using hemp
    rw [validate_consec_eq_some P f2 hne] at h
    injection h with h
    rw [← h]

theorem validate_multi_table {P : Params} {w : ℕ} {f2 : Feed} {r : ValidityRecord}
    (h : validate_travel_over_multiple_stops P w f2 = some r) :
    r.table = "multiple_stops_invalid" := by
  by_cases hemp : (flaggedIdx (winFlagged P) (multipleStopsTable P w f2)).isEmpty
  · have hnone : validate_travel_over_multiple_stops P w f2 = none := by
      show (if _ then none else some _) = none
      rw [if_pos hemp]
    rw [hnone] at h
    cases h
  · have hne : flaggedIdx (winFlagged P) (multipleStopsTable P w f2) ≠ [] := by
      simpa [List.isEmpty_iff] using hemp
    rw [validate_multi_eq_some P w f2 hne] at h
    injection h with h
    rw [← h]

theorem recordRowCount_consec_zero (P : Params) (w : ℕ) (f2 : Feed)
    (hnone : validate_travel_between_consecutive_stops P f2 = none) :
    recordRowCount "full_stop_schedule" (fastTravelLedger P w f2) = 0 := by
  rw [fastTravelLedger, hnone]
  cases hm : validate_travel_over_multiple_stops P w f2 with
  | none => rfl
  | some r =>
    have ht := validate_multi_table hm
    show recordRowCount "full_stop_schedule" ([] ++ [r]) = 0
    have hne : (r.table == "full_stop_schedule") = false := by
      rw [ht]
      rfl
    simp [recordRowCount, hne]

theorem recordRowCount_multi_zero (P : Params) (w : ℕ) (f2 : Feed)
    (hnone : validate_travel_over_multiple_stops P w f2 = none) :
    recordRowCount "multiple_stops_invalid" (fastTravelLedger P w f2) = 0 := by
  rw [fastTravelLedger, hnone]
  cases hm : validate_travel_between_consecutive_stops P f2 with
  | none => rfl
  | some r =>
    have ht := validate_consec_table hm
    show recordRowCount "multiple_stops_invalid" ([r] ++ []) = 0
    have hne : (r.table == "multiple_stops_invalid") = false := by
      rw [ht]
      rfl
    simp [recordRowCount, hne]

/-- C6.  For every feed, cleaning (which maps the rows flagged by the
fast-travel checks back to trip identifiers, removes those trips from the
trips, stop-times and shape tables, and re-runs validation) never increases,
for the same check, the number of flagged rows: the post-clean ledger's row
count is at most the pre-clean ledger's row count restricted to that
cleanable kind. -/
theorem cleaning_monotonic (P : Params) (w : ℕ) (f : Feed) :
    recordRowCount "full_stop_schedule"
        (fastTravelLedger P w (clean_feed P w f).feed)
      ≤ recordRowCount "full_stop_schedule" (fastTravelLedger P w f)
    ∧ recordRowCount "multiple_stops_invalid"
        (fastTravelLedger P w (clean_feed P w f).feed)
      ≤ recordRowCount "multiple_stops_invalid" (fastTravelLedger P w f) := by
  have hfeed0 : (clean_feed P w f).feed =
      (cleanStep (cleanStep f (flaggedTripIdsConsec P f)).1
        (flaggedTripIdsMulti P w f)).1 := rfl
  by_cases hshape : f.shapes.has_shape_id
  · have h1 : cleanStep f (flaggedTripIdsConsec P f) =
        (drop_trips f (flaggedTripIdsConsec P f), []) := by
      simp [cleanStep, hshape]
    have h2 : cleanStep (drop_trips f (flaggedTripIdsConsec P f))
        (flaggedTripIdsMulti P w f) =
        (drop_trips (drop_trips f (flaggedTripIdsConsec P f))
          (flaggedTripIdsMulti P w f), []) := by
      have hshape2 : (drop_trips f (flaggedTripIdsConsec P f)).shapes.has_shape_id = true :=
        hshape
      simp [cleanStep, hshape2]
    have hfeed : (clean_feed P w f).feed =
        drop_trips (drop_trips f (flaggedTripIdsConsec P f))
          (flaggedTripIdsMulti P w f) := by
      rw [hfeed0, h1, h2]
    have hall1 : ∀ s ∈ fullStopSchedule P
        (drop_trips (drop_trips f (flaggedTripIdsConsec P f))
          (flaggedTripIdsMulti P w f)), segFlagged P s = false := by
      intro s hs
      rw [fullStopSchedule_drop_trips, List.mem_flatten] at hs
      obtain ⟨lseg, hl, hsmem⟩ := hs
      rw [List.mem_map] at hl
      obtain ⟨tid, htid, rfl⟩ := hl
      rw [List.mem_filter] at htid
      obtain ⟨htid1, _⟩ := htid
      rw [tripIds_drop_trips, List.mem_filter] at htid1
      obtain ⟨htid0, hk1⟩ := htid1
      have hk1f : (flaggedTripIdsConsec P f).contains tid = false := by
        simpa using hk1
      rw [tripSegments_drop_trips hk1f] at hsmem
      by_contra hflag
      rw [Bool.not_eq_false] at hflag
      have hsched : s ∈ fullStopSchedule P f := by
        rw [fullStopSchedule, List.mem_flatten]
        exact ⟨tripSegments P f tid, List.mem_map_of_mem _ htid0, hsmem⟩
      have hin := trip_mem_flaggedTripIdsConsec hsched hflag
      rw [trip_id_of_mem_tripSegments hsmem] at hin
      have : (flaggedTripIdsConsec P f).contains tid = true := by simpa using hin
      rw [this] at hk1f
      cases hk1f
    have hall2 : ∀ r ∈ multipleStopsTable P w
        (drop_trips (drop_trips f (flaggedTripIdsConsec P f))
          (flaggedTripIdsMulti P w f)), winFlagged P r = false := by
      intro r hr
      rw [multipleStopsTable_drop_trips, List.mem_flatten] at hr
      obtain ⟨lrow, hl, hrmem⟩ := hr
      rw [List.mem_map] at hl
      obtain ⟨tid, htid, rfl⟩ := hl
      rw [List.mem_filter] at htid
      obtain ⟨htid1, hk2⟩ := htid
      rw [tripIds_drop_trips, List.mem_filter] at htid1
      obtain ⟨htid0, hk1⟩ := htid1
      have hk1f : (flaggedTripIdsConsec P f).contains tid = false := by
        simpa using hk1
      have hk2f : (flaggedTripIdsMulti P w f).contains tid = false := by
        simpa using hk2
      rw [tripWindows_drop_trips hk1f,
        show (tripWindows w f tid).map
            (mkWindowRow P (drop_trips f (flaggedTripIdsConsec P f)) tid) =
          (tripWindows w f tid).map (mkWindowRow P f tid) from
          List.map_congr_left (fun win _ => mkWindowRow_drop_trips hk1f win)] at hrmem
      by_contra hflag
      rw [Bool.not_eq_false] at hflag
      have htab : r ∈ multipleStopsTable P w f := by
        rw [multipleStopsTable, List.mem_flatten]
        exact ⟨(tripWindows w f tid).map (mkWindowRow P f tid),
          List.mem_map_of_mem _ htid0, hrmem⟩
      have hin := trip_mem_flaggedTripIdsMulti htab hflag
      rw [trip_id_of_mem_windows hrmem] at hin
      have : (flaggedTripIdsMulti P w f).contains tid = true := by simpa using hin
      rw [this] at hk2f
      cases hk2f
    have hnone1 : validate_travel_between_consecutive_stops P
        (drop_trips (drop_trips f (flaggedTripIdsConsec P f))
          (flaggedTripIdsMulti P w f)) = none :=
      (ite_flagged_eq_none_iff _ _ _).2 hall1
    have hnone2 : validate_travel_over_multiple_stops P w
        (drop_trips (drop_trips f (flaggedTripIdsConsec P f))
          (flaggedTripIdsMulti P w f)) = none :=
      (ite_flagged_eq_none_iff _ _ _).2 hall2
    rw [hfeed]
    constructor
    · rw [recordRowCount_consec_zero P w _ hnone1]
      exact Nat.zero_le _
    · rw [recordRowCount_multi_zero P w _ hnone2]
      exact Nat.zero_le _
  · have h1 : cleanStep f (flaggedTripIdsConsec P f) = (f, [keyErrorMsg]) := by
      simp [cleanStep, hshape]
    have h2 : cleanStep f (flaggedTripIdsMulti P w f) = (f, [keyErrorMsg]) := by
      simp [cleanStep, hshape]
    have hfeed : (clean_feed P w f).feed = f := by
      rw [hfeed0, h1, h2]
    rw [hfeed]
    exact ⟨Nat.le_refl _, Nat.le_refl _⟩

/-! ### C7: cleaning failures are non-fatal -/

/-- C7.  For every feed whose shapes table misses the expected `shape_id`
column, cleaning does not raise (it is a total function into `CleanResult`):
each removal step reports the failure via a non-fatal message, the step's
target table — indeed the whole feed — is left unmodified, and cleaning of
the other record kind still runs (both kinds report). -/
theorem cleaning_failure_nonfatal (P : Params) (w : ℕ) (f : Feed)
    (h : f.shapes.has_shape_id = false) :
    (clean_feed P w f).feed.shapes = f.shapes
    ∧ (clean_feed P w f).feed = f
    ∧ (clean_feed P w f).messages = [keyErrorMsg, keyErrorMsg] := by
  have hfeed0 : (clean_feed P w f).feed =
      (cleanStep (cleanStep f (flaggedTripIdsConsec P f)).1
        (flaggedTripIdsMulti P w f)).1 := rfl
  have hmsg0 : (clean_feed P w f).messages =
      (cleanStep f (flaggedTripIdsConsec P f)).2 ++
        (cleanStep (cleanStep f (flaggedTripIdsConsec P f)).1
          (flaggedTripIdsMulti P w f)).2 := rfl
  have h1 : cleanStep f (flaggedTripIdsConsec P f) = (f, [keyErrorMsg]) := by
    simp [cleanStep, h]
  have h2 : cleanStep f (flaggedTripIdsMulti P w f) = (f, [keyErrorMsg]) := by
    simp [cleanStep, h]
  have hfeed : (clean_feed P w f).feed = f := by
    rw [hfeed0, h1]
    show (cleanStep f (flaggedTripIdsMulti P w f)).1 = f
    rw [h2]
  refine ⟨by rw [hfeed], hfeed, ?_⟩
  rw [hmsg0, h1]
  show [keyErrorMsg] ++ (cleanStep f (flaggedTripIdsMulti P w f)).2 = _
  rw [h2]
  rfl

/-- A feed whose shapes table misses the `shape_id` column
(`test_clean_feed_defence` drops the column from `shapes.txt`). -/
def feedNoShapeId : Feed :=
  { feedFast with shapes := ⟨false, [⟨"sh1"⟩]⟩ }

theorem cleaning_failure_nonfatal_witness :
    feedNoShapeId.shapes.has_shape_id = false
    ∧ (clean_feed P0 3 feedNoShapeId).feed.shapes = feedNoShapeId.shapes
    ∧ (clean_feed P0 3 feedNoShapeId).feed = feedNoShapeId
    ∧ (clean_feed P0 3 feedNoShapeId).messages = [keyErrorMsg, keyErrorMsg] :=
  ⟨by decide,
    (cleaning_failure_nonfatal P0 3 feedNoShapeId (by decide)).1,
    (cleaning_failure_nonfatal P0 3 feedNoShapeId (by decide)).2.1,
    (cleaning_failure_nonfatal P0 3 feedNoShapeId (by decide)).2.2⟩

/-! ### C10: validators and cleaners demand a prior validation pass -/

/-- C10.  For every feed wrapper on which `is_valid` has not been run (no
validity ledger exists), the fast-travel validators and the fast-travel
cleaners invoked with `validate = false` fail with the `AttributeError`
messages directing the caller to validate first; the error result carries no
updated instance, so no flags are computed and no trips are removed. -/
theorem unvalidated_gtfs_raises (P : Params) (w : ℕ) (g : GtfsInstance)
    (h : g.validity_df = none) :
    gtfsValidateConsecutive P g = Except.error validityMissingMsg
    ∧ gtfsValidateMulti P w g = Except.error validityMissingMsg
    ∧ clean_consecutive_stop_fast_travel_warnings P w g false =
        Except.error notValidatedMsg
    ∧ clean_multiple_stop_fast_travel_warnings P w g false =
        Except.error notValidatedMsg := by
  refine ⟨?_, ?_, ?_, ?_⟩
  · rw [gtfsValidateConsecutive, h]
  · rw [gtfsValidateMulti, h]
  · simp [clean_consecutive_stop_fast_travel_warnings, h]
  · simp [clean_multiple_stop_fast_travel_warnings, h]

/-- A feed wrapper fresh from the constructor: no validity ledger yet. -/
def gtfsUnvalidated : GtfsInstance := { feed := feedFast, validity_df := none }

theorem unvalidated_gtfs_raises_witness :
    gtfsUnvalidated.validity_df = none
    ∧ gtfsValidateConsecutive P0 gtfsUnvalidated = Except.error validityMissingMsg
    ∧ gtfsValidateMulti P0 3 gtfsUnvalidated = Except.error validityMissingMsg
    ∧ clean_consecutive_stop_fast_travel_warnings P0 3 gtfsUnvalidated false =
        Except.error notValidatedMsg
    ∧ clean_multiple_stop_fast_travel_warnings P0 3 gtfsUnvalidated false =
        Except.error notValidatedMsg :=
  ⟨rfl,
    (unvalidated_gtfs_raises P0 3 gtfsUnvalidated rfl).1,
    (unvalidated_gtfs_raises P0 3 gtfsUnvalidated rfl).2.1,
    (unvalidated_gtfs_raises P0 3 gtfsUnvalidated rfl).2.2.1,
    (unvalidated_gtfs_raises P0 3 gtfsUnvalidated rfl).2.2.2⟩

/-! ### C5: a feed with no calendar information is fatal -/

theorem ensurePopulatedCalendar_ok_of_not_both_empty {f : Feed}
    (h : (f.calendar.isEmpty && f.calendar_dates.isEmpty) = false) :
    ∃ f2, ensurePopulatedCalendar f = Except.ok f2 := by
  rw [ensurePopulatedCalendar, if_neg (by simp [h])]
  by_cases hc : f.calendar.isEmpty
  · exact ⟨_, by rw [if_pos hc]⟩
  · exact ⟨f, by rw [if_neg hc]⟩

/-- C5.  For every feed whose weekly-pattern and exception tables are both
empty, calendar expansion fails with a fatal error naming the offending feed
— both on the single feed, and across a collection, where the first such feed
aborts the whole operation (the error propagates, nothing is expanded). -/
theorem empty_calendar_fatal (f : Feed) (m : List GtfsInstance) (g : GtfsInstance)
    (hf : f.calendar = [] ∧ f.calendar_dates = [])
    (hmem : m.find? (fun g2 => g2.feed.calendar.isEmpty &&
      g2.feed.calendar_dates.isEmpty) = some g) :
    ensurePopulatedCalendar f =
      Except.error ("Both calendar and calendar_dates are empty for feed " ++ f.name)
    ∧ ensure_populated_calendars m =
      Except.error
        ("Both calendar and calendar_dates are empty for feed " ++ g.feed.name) := by
  constructor
  · rw [ensurePopulatedCalendar, if_pos (by simp [hf.1, hf.2])]
  · clear hf
    induction m with
    | nil => simp at hmem
    | cons a rest ih =>
      by_cases ha : (a.feed.calendar.isEmpty && a.feed.calendar_dates.isEmpty) = true
      · rw [List.find?_cons_of_pos (p := fun g2 : GtfsInstance => g2.feed.calendar.isEmpty &&
          g2.feed.calendar_dates.isEmpty) _ ha] at hmem
        injection hmem with hmem
        subst hmem
        rw [ensure_populated_calendars]
        have herr : ensurePopulatedCalendar a.feed =
            Except.error
              ("Both calendar and calendar_dates are empty for feed " ++ a.feed.name) := by
          rw [ensurePopulatedCalendar, if_pos ha]
        rw [herr]
      · rw [List.find?_cons_of_neg (p := fun g2 : GtfsInstance => g2.feed.calendar.isEmpty &&
          g2.feed.calendar_dates.isEmpty) _ (by simpa using ha)] at hmem
        have hrec := ih hmem
        rw [ensure_populated_calendars]
        obtain ⟨f2, hok⟩ := ensurePopulatedCalendar_ok_of_not_both_empty
          (by simpa using ha)
        rw [hok, hrec]

/-- A feed with neither calendar table populated. -/
def feedNoCalendars : Feed :=
  { name := "broken_feed.zip"
    stops := []
    stop_times := []
    trips := []
    routes := []
    calendar := []
    calendar_dates := []
    shapes := ⟨true, []⟩ }

theorem empty_calendar_fatal_witness :
    (feedNoCalendars.calendar = [] ∧ feedNoCalendars.calendar_dates = [])
    ∧ ensurePopulatedCalendar feedNoCalendars =
        Except.error
          ("Both calendar and calendar_dates are empty for feed broken_feed.zip")
    ∧ ensure_populated_calendars [⟨feedNoCalendars, none⟩] =
        Except.error
          ("Both calendar and calendar_dates are empty for feed broken_feed.zip") :=
  ⟨⟨rfl, rfl⟩,
    (empty_calendar_fatal feedNoCalendars [⟨feedNoCalendars, none⟩]
      ⟨feedNoCalendars, none⟩ ⟨rfl, rfl⟩ (by decide)).1,
    (empty_calendar_fatal feedNoCalendars [⟨feedNoCalendars, none⟩]
      ⟨feedNoCalendars, none⟩ ⟨rfl, rfl⟩ (by decide)).2⟩

/-! ### C9: empty-feed validation -/

/-- C9.  For every collection, `validate_empty_feeds` returns the identifiers
of exactly the feeds with zero stop-times; with `delete` it removes exactly
those feeds and warns precisely when the collection thereby becomes empty
(so emptying every feed and deleting leaves zero feeds and warns); without
`delete` the collection is untouched and no warning is emitted. -/
theorem validate_empty_feeds_spec (m : MultiGtfsInstance) :
    (∀ d : Bool, (validate_empty_feeds m d).empty_feed_ids =
      (m.instances.filter (fun g => g.feed.stop_times.isEmpty)).map
        (fun g => g.feed.name))
    ∧ (∀ g, g ∈ (validate_empty_feeds m true).collection.instances ↔
        g ∈ m.instances ∧ g.feed.stop_times ≠ [])
    ∧ (validate_empty_feeds m false).collection = m
    ∧ ((validate_empty_feeds m true).warnings = [noFeedsWarning] ↔
        ∀ g ∈ m.instances, g.feed.stop_times = [])
    ∧ (validate_empty_feeds m false).warnings = [] := by
  refine ⟨?_, ?_, ?_, ?_, ?_⟩
  · intro d
    cases d <;> rfl
  · intro g
    show g ∈ m.instances.filter (fun g => !(g.feed.stop_times.isEmpty)) ↔ _
    rw [List.mem_filter]
    simp [List.isEmpty_iff]
  · rfl
  · show (if (m.instances.filter (fun g => !(g.feed.stop_times.isEmpty))).isEmpty
      then [noFeedsWarning] else []) = [noFeedsWarning] ↔ _
    by_cases hemp : (m.instances.filter (fun g => !(g.feed.stop_times.isEmpty))).isEmpty
    · rw [if_pos hemp, List.isEmpty_iff, List.filter_eq_nil_iff] at *
      simp only [true_iff]
      intro g hg
      have := hemp g hg
      simpa [List.isEmpty_iff] using this
    · rw [if_neg hemp]
      constructor
      · intro hcon
        cases hcon
      · intro hall
        exfalso
        apply hemp
        rw [List.isEmpty_iff, List.filter_eq_nil_iff]
        intro g hg
        simp [List.isEmpty_iff, hall g hg]
  · rfl

/-- Two feed wrappers whose stop-times have been emptied
(`test_validate_empty_feeds` drops every stop-time row). -/
def mAllEmpty : MultiGtfsInstance :=
  { instances :=
      [⟨{ feedFast with name := "chester", stop_times := [] }, none⟩,
        ⟨{ feedFast with name := "newport", stop_times := [] }, none⟩] }

theorem validate_empty_feeds_spec_witness :
    (validate_empty_feeds mAllEmpty true).empty_feed_ids = ["chester", "newport"]
    ∧ (validate_empty_feeds mAllEmpty true).collection.instances = []
    ∧ (validate_empty_feeds mAllEmpty true).warnings = [noFeedsWarning] :=
  ⟨by decide, by decide,
    ((validate_empty_feeds_spec mAllEmpty).2.2.2.1).2 (by decide)⟩

/-! ### C4: synthesizing a weekly pattern from exception dates -/

theorem foldl_min_mem (l : List ℕ) (a : ℕ) :
    List.foldl min a l = a ∨ List.foldl min a l ∈ l := by
  induction l generalizing a with
  | nil => left; rfl
  | cons b t ih =>
    rw [List.foldl_cons]
    rcases ih (min a b) with h | h
    · rcases Nat.le_total a b with hab | hab
      · left
        rw [h, Nat.min_eq_left hab]
      · right
        rw [h, Nat.min_eq_right hab]
        exact List.mem_cons_self ..
    · right
      exact List.mem_cons_of_mem _ h

theorem foldl_min_le_init (l : List ℕ) (a : ℕ) : List.foldl min a l ≤ a := by
  induction l generalizing a with
  | nil => exact Nat.le_refl a
  | cons b t ih =>
    rw [List.foldl_cons]
    exact Nat.le_trans (ih (min a b)) (Nat.min_le_left a b)

theorem foldl_min_le_mem (l : List ℕ) (a x : ℕ) (hx : x ∈ l) :
    List.foldl min a l ≤ x := by
  induction l generalizing a with
  | nil => simp at hx
  | cons b t ih =>
    rw [List.foldl_cons]
    rcases List.mem_cons.1 hx with rfl | hx2
    · exact Nat.le_trans (foldl_min_le_init t (min a x)) (Nat.min_le_right a x)
    · exact ih (min a b) hx2

theorem listMin_mem {l : List ℕ} (h : l ≠ []) : listMin l ∈ l := by
  match l with
  | a :: t =>
    rw [listMin]
    rcases foldl_min_mem t a with h2 | h2
    · rw [h2]
      exact List.mem_cons_self ..
    · exact List.mem_cons_of_mem _ h2

theorem listMin_le {l : List ℕ} {x : ℕ} (hx : x ∈ l) : listMin l ≤ x := by
  match l with
  | a :: t =>
    rw [listMin]
    rcases List.mem_cons.1 hx with rfl | hx2
    · exact foldl_min_le_init t x
    · exact foldl_min_le_mem t a x hx2

theorem foldl_max_mem (l : List ℕ) (a : ℕ) :
    List.foldl max a l = a ∨ List.foldl max a l ∈ l := by
  induction l generalizing a with
  | nil => left; rfl
  | cons b t ih =>
    rw [List.foldl_cons]
    rcases ih (max a b) with h | h
    · rcases Nat.le_total a b with hab | hab
      · right
        rw [h, Nat.max_eq_right hab]
        exact List.mem_cons_self ..
      · left
        rw [h, Nat.max_eq_left hab]
    · right
      exact List.mem_cons_of_mem _ h

theorem foldl_max_le_init (l : List ℕ) (a : ℕ) : a ≤ List.foldl max a l := by
  induction l generalizing a with
  | nil => exact Nat.le_refl a
  | cons b t ih =>
    rw [List.foldl_cons]
    exact Nat.le_trans (Nat.le_max_left a b) (ih (max a b))

theorem foldl_max_le_mem (l : List ℕ) (a x : ℕ) (hx : x ∈ l) :
    x ≤ List.foldl max a l := by
  induction l generalizing a with
  | nil => simp at hx
  | cons b t ih =>
    rw [List.foldl_cons]
    rcases List.mem_cons.1 hx with rfl | hx2
    · exact Nat.le_trans (Nat.le_max_right a x) (foldl_max_le_init t (max a x))
    · exact ih (max a b) hx2

theorem listMax_mem {l : List ℕ} (h : l ≠ []) : listMax l ∈ l := by
  match l with
  | a :: t =>
    rw [listMax]
    rcases foldl_max_mem t a with h2 | h2
    · rw [h2]
      exact List.mem_cons_self ..
    · exact List.mem_cons_of_mem _ h2

theorem listMax_le {l : List ℕ} {x : ℕ} (hx : x ∈ l) : x ≤ listMax l := by
  match l with
  | a :: t =>
    rw [listMax]
    rcases List.mem_cons.1 hx with rfl | hx2
    · exact foldl_max_le_init t x
    · exact foldl_max_le_mem t a x hx2

theorem mem_rangeClosed {s e d : ℕ} : d ∈ rangeClosed s e ↔ s ≤ d ∧ d ≤ e := by
  rw [rangeClosed]
  simp only [List.mem_map, List.mem_range]
  constructor
  · rintro ⟨k, hk, rfl⟩
    omega
  · rintro ⟨h1, h2⟩
    exact ⟨d - s, by omega, by omega⟩

theorem datesOfService_ne_nil {cd : List CalendarDateRow} {sid : String}
    (h : sid ∈ serviceIdsOf cd) : datesOfService cd sid ≠ [] := by
  rw [serviceIdsOf, List.mem_dedup, List.mem_map] at h
  obtain ⟨r, hr, rfl⟩ := h
  rw [datesOfService]
  intro hnil
  rw [List.map_eq_nil_iff, List.filter_eq_nil_iff] at hnil
  exact hnil r hr (by simp)

/-- C4.  For every feed with only an exception table (weekly-pattern table
empty, exception table nonempty), calendar expansion synthesizes exactly one
weekly-pattern row per service of the exception table, bounded by the minimum
and maximum of that service's exception dates; and a weekday flag is set only
if every occurrence of that weekday within the bound is an `add` exception
with no corresponding `remove`. -/
theorem calendar_synthesis_spec (f : Feed) (hcal : f.calendar = [])
    (hcd : f.calendar_dates ≠ []) :
    ensurePopulatedCalendar f =
      Except.ok { f with calendar := synthesize_calendar f.calendar_dates }
    ∧ (synthesize_calendar f.calendar_dates).map (fun r => r.service_id) =
        serviceIdsOf f.calendar_dates
    ∧ (serviceIdsOf f.calendar_dates).Nodup
    ∧ ∀ row ∈ synthesize_calendar f.calendar_dates,
        (row.start_date ∈ datesOfService f.calendar_dates row.service_id
          ∧ ∀ d ∈ datesOfService f.calendar_dates row.service_id,
              row.start_date ≤ d)
        ∧ (row.end_date ∈ datesOfService f.calendar_dates row.service_id
          ∧ ∀ d ∈ datesOfService f.calendar_dates row.service_id,
              d ≤ row.end_date)
        ∧ ∀ wd, row.day wd = true →
            ∀ d, row.start_date ≤ d → d ≤ row.end_date → d % 7 = wd →
              (∃ r2 ∈ f.calendar_dates, r2.service_id = row.service_id
                ∧ r2.date = d ∧ r2.exception_type = 1)
              ∧ ¬ ∃ r2 ∈ f.calendar_dates, r2.service_id = row.service_id
                ∧ r2.date = d ∧ r2.exception_type = 2 := by
  have hok : ensurePopulatedCalendar f =
      Except.ok { f with calendar := synthesize_calendar f.calendar_dates } := by
    rw [ensurePopulatedCalendar,
      if_neg (by simp [hcal, List.isEmpty_iff, hcd]),
      if_pos (by simp [hcal])]
  refine ⟨hok, ?_, List.nodup_dedup _, ?_⟩
  · rw [synthesize_calendar, List.map_map]
    exact List.map_id _
  · intro row hrow
    rw [synthesize_calendar, List.mem_map] at hrow
    obtain ⟨sid, hsid, rfl⟩ := hrow
    have hds := datesOfService_ne_nil hsid
    refine ⟨⟨listMin_mem hds, fun d hd => listMin_le hd⟩,
      ⟨listMax_mem hds, fun d hd => listMax_le hd⟩, ?_⟩
    intro wd hday d hd1 hd2 hd7
    have hflag : synthDayFlag f.calendar_dates sid
        (listMin (datesOfService f.calendar_dates sid))
        (listMax (datesOfService f.calendar_dates sid)) wd = true := by
      match wd, hday with
      | 0, hday => exact hday
      | 1, hday => exact hday
      | 2, hday => exact hday
      | 3, hday => exact hday
      | 4, hday => exact hday
      | 5, hday => exact hday
      | 6, hday => exact hday
      | n + 7, hday => cases hday
    rw [synthDayFlag, Bool.and_eq_true] at hflag
    have hall := hflag.2
    rw [List.all_eq_true] at hall
    have hmem : d ∈ rangeClosed (listMin (datesOfService f.calendar_dates sid))
        (listMax (datesOfService f.calendar_dates sid)) :=
      mem_rangeClosed.2 ⟨hd1, hd2⟩
    have hd := hall d hmem
    rw [if_pos (by simpa using hd7)] at hd
    rw [Bool.and_eq_true] at hd
    constructor
    · have := hd.1
      rw [hasAdd, List.any_eq_true] at this
      obtain ⟨r2, hr2, hp⟩ := this
      simp only [Bool.and_eq_true, beq_iff_eq] at hp
      exact ⟨r2, hr2, hp.1.1, hp.1.2, hp.2⟩
    · have hrem : hasRemove f.calendar_dates sid d = false := by
        simpa using hd.2
      rintro ⟨r2, hr2, hsid2, hdate2, htype2⟩
      have hcon : hasRemove f.calendar_dates sid d = true := by
        rw [hasRemove, List.any_eq_true]
        exact ⟨r2, hr2, by simp [hsid2, hdate2, htype2]⟩
      rw [hcon] at hrem
      cases hrem

/-- The exception table of `test_init_missing_calendar`: service `"740"`,
five `add` exceptions on consecutive weekdays (ordinals 7..11 are a Monday
through Friday, since `7 % 7 = 0` is the Monday index). -/
def cd740 : List CalendarDateRow :=
  [⟨"740", 7, 1⟩, ⟨"740", 8, 1⟩, ⟨"740", 9, 1⟩, ⟨"740", 10, 1⟩, ⟨"740", 11, 1⟩]

/-- A feed with no weekly-pattern table and the `cd740` exception table. -/
def feed740 : Feed :=
  { name := "chester"
    stops := []
    stop_times := []
    trips := []
    routes := []
    calendar := []
    calendar_dates := cd740
    shapes := ⟨true, []⟩ }

/-- The weekly-pattern row `test_init_missing_calendar` expects: Monday to
Friday set, Saturday and Sunday clear, bounded by the exception dates. -/
def row740 : CalendarRow :=
  { service_id := "740"
    monday := true
    tuesday := true
    wednesday := true
    thursday := true
    friday := true
    saturday := false
    sunday := false
    start_date := 7
    end_date := 11 }

theorem calendar_synthesis_spec_witness :
    synthesize_calendar feed740.calendar_dates = [row740]
    ∧ ensurePopulatedCalendar feed740 =
        Except.ok { feed740 with calendar := synthesize_calendar feed740.calendar_dates }
    ∧ row740.monday = true
    ∧ row740.saturday = false
    ∧ row740.sunday = false
    ∧ row740.start_date ∈ datesOfService feed740.calendar_dates row740.service_id :=
  ⟨by decide,
    (calendar_synthesis_spec feed740 rfl (by decide)).1,
    by decide, by decide, by decide,
    ((calendar_synthesis_spec feed740 rfl (by decide)).2.2.2 row740 (by decide)).1.1⟩

/-! ### C8: multi-feed date collection -/

/-- C8.  For every multi-feed collection with at least one active date,
`get_dates` with `return_range = true` returns the two-element `[min, max]`
over all feeds' expanded calendar dates, and with `return_range = false`
returns the full sorted duplicate-free union of the feeds' active dates. -/
theorem get_dates_spec (m : MultiGtfsInstance) (h : m.allActiveDates ≠ []) :
    get_dates m true = [listMin m.allActiveDates, listMax m.allActiveDates]
    ∧ (∃ g ∈ m.instances, listMin m.allActiveDates ∈ g.feed.activeDates)
    ∧ (∃ g ∈ m.instances, listMax m.allActiveDates ∈ g.feed.activeDates)
    ∧ (∀ d g, g ∈ m.instances → d ∈ g.feed.activeDates →
        listMin m.allActiveDates ≤ d ∧ d ≤ listMax m.allActiveDates)
    ∧ (get_dates m false).Pairwise (fun a b : ℕ => a ≤ b)
    ∧ (get_dates m false).Nodup
    ∧ ∀ d, (d ∈ get_dates m false ↔ ∃ g ∈ m.instances, d ∈ g.feed.activeDates) := by
  have hmem_all : ∀ d, d ∈ m.allActiveDates ↔
      ∃ g ∈ m.instances, d ∈ g.feed.activeDates := by
    intro d
    rw [MultiGtfsInstance.allActiveDates, List.mem_flatten]
    constructor
    · rintro ⟨l, hl, hd⟩
      rw [List.mem_map] at hl
      obtain ⟨g, hg, rfl⟩ := hl
      exact ⟨g, hg, hd⟩
    · rintro ⟨g, hg, hd⟩
      exact ⟨g.feed.activeDates, List.mem_map_of_mem _ hg, hd⟩
  refine ⟨rfl, ?_, ?_, ?_, ?_, ?_, ?_⟩
  · exact (hmem_all _).1 (listMin_mem h)
  · exact (hmem_all _).1 (listMax_mem h)
  · intro d g hg hd
    have hdm : d ∈ m.allActiveDates := (hmem_all d).2 ⟨g, hg, hd⟩
    exact ⟨listMin_le hdm, listMax_le hdm⟩
  · exact List.sorted_insertionSort _ _
  · exact (List.perm_insertionSort _ _).nodup_iff.2 (List.nodup_dedup _)
  · intro d
    show d ∈ List.insertionSort _ _ ↔ _
    rw [(List.perm_insertionSort _ _).mem_iff, List.mem_dedup]
    exact hmem_all d

/-- A feed whose weekly pattern spans ordinals 4..9 with every weekday flag
set (2023-06-05 .. 2023-06-10 as days since 2023-06-01). -/
def feedSpan1 : Feed :=
  { name := "feed1"
    stops := []
    stop_times := []
    trips := []
    routes := []
    calendar := [⟨"s1", true, true, true, true, true, true, true, 4, 9⟩]
    calendar_dates := []
    shapes := ⟨true, []⟩ }

/-- A feed whose weekly pattern spans ordinals 7..330
(2023-06-08 .. 2024-04-26 as days since 2023-06-01). -/
def feedSpan2 : Feed :=
  { name := "feed2"
    stops := []
    stop_times := []
    trips := []
    routes := []
    calendar := [⟨"s2", true, true, true, true, true, true, true, 7, 330⟩]
    calendar_dates := []
    shapes := ⟨true, []⟩ }

/-- The two-feed scenario of `test_get_dates`. -/
def mSpan : MultiGtfsInstance :=
  { instances := [⟨feedSpan1, none⟩, ⟨feedSpan2, none⟩] }

set_option maxRecDepth 100000 in
theorem get_dates_spec_witness :
    mSpan.allActiveDates ≠ []
    ∧ get_dates mSpan true = [listMin mSpan.allActiveDates, listMax mSpan.allActiveDates]
    ∧ get_dates mSpan true = [4, 330]
    ∧ (get_dates mSpan false).length = 327 :=
  ⟨by decide, (get_dates_spec mSpan (by decide)).1, by decide, by decide⟩

end AssessGtfs
